import Mathlib

/-!
# A shallow embedding of `bing.cpp` (the 3D shooter loop)

The C++ `double` is read as an exact scalar: every definition is written over an
arbitrary linearly ordered field `K` (the theorems that need real analysis take `K = ℝ`).
The library function `sqrt` of `<cmath>` is not part of the repository, so the functions
that call it take it as the explicit argument `sqrt`; for `K = ℝ` it is `Real.sqrt`.
The global variables `player`, `enemies` and `timeElapsed` become the fields of `World`,
`std::vector` becomes `List`, and each `for` loop becomes a recursion on its index.
`int score` is an unbounded `Int` (signed overflow is undefined in C++).
-/

namespace Bing

/-! ## Data model -/

/-- The class `Vector3`: three `double` components. -/
structure Vector3 (K : Type) where
  x : K
  y : K
  z : K

/-- The class `Object`: position, velocity and mass. -/
structure Object (K : Type) where
  position : Vector3 K
  velocity : Vector3 K
  mass : K

/-- The class `Bullet : public Object`. -/
structure Bullet (K : Type) extends Object K where
  damage : K
  active : Bool

/-- The class `Enemy : public Object`. -/
structure Enemy (K : Type) extends Object K where
  health : K
  alive : Bool

/-- The class `Player : public Object`. -/
structure Player (K : Type) extends Object K where
  health : K
  alive : Bool
  bullets : List (Bullet K)
  score : Int

/-- The global variables `player`, `enemies`, `timeElapsed`. -/
structure World (K : Type) where
  player : Player K
  enemies : List (Enemy K)
  timeElapsed : K

section Defs

variable {K : Type} [LinearOrderedField K]

/-! ## Vector3 -/

namespace Vector3

/-- The default constructor `Vector3()`: all components 0. -/
def zero : Vector3 K := ⟨0, 0, 0⟩

/-- The member `operator+`. -/
def add (u v : Vector3 K) : Vector3 K := ⟨u.x + v.x, u.y + v.y, u.z + v.z⟩

/-- The member `operator-`. -/
def sub (u v : Vector3 K) : Vector3 K := ⟨u.x - v.x, u.y - v.y, u.z - v.z⟩

/-- The member `operator*(double k)`. -/
def smul (u : Vector3 K) (k : K) : Vector3 K := ⟨u.x * k, u.y * k, u.z * k⟩

/-- The member `dot`. -/
def dot (u v : Vector3 K) : K := u.x * v.x + u.y * v.y + u.z * v.z

/-- The member `cross`. -/
def cross (u v : Vector3 K) : Vector3 K :=
  ⟨u.y * v.z - u.z * v.y, u.z * v.x - u.x * v.z, u.x * v.y - u.y * v.x⟩

/-- The member `length`: `sqrt(dot(*this))`. -/
def length (sqrt : K → K) (u : Vector3 K) : K := sqrt (u.dot u)

/-- The member `normalize`, returning the new value of `*this`. -/
def normalize (sqrt : K → K) (u : Vector3 K) : Vector3 K :=
  let len := u.length sqrt
  if len > 0 then ⟨u.x / len, u.y / len, u.z / len⟩ else u

end Vector3

/-- The constant `GRAVITY_CONSTANT`. -/
def GRAVITY_CONSTANT : K := -9.8

/-- The global `gravity(0, GRAVITY_CONSTANT, 0)`. -/
def gravity : Vector3 K := ⟨0, GRAVITY_CONSTANT, 0⟩

/-! ## Object -/

/-- The member `Object::update(dt)`. -/
def Object.update (o : Object K) (dt : K) : Object K :=
  let position := o.position.add (o.velocity.smul dt)
  let velocity := o.velocity.add ((gravity : Vector3 K).smul dt)
  { o with position := position, velocity := velocity }

/-- The constructor `Bullet(position, velocity)` with its defaults `mass = 0.01`,
`damage = 10`; `active` starts true. -/
def Bullet.mk0 (position velocity : Vector3 K) : Bullet K :=
  { position := position, velocity := velocity, mass := 0.01, damage := 10, active := true }

/-- The constructor `Enemy(position)` with its defaults: zero velocity, `mass = 1`,
`health = 100`; `alive` starts true. -/
def Enemy.mk0 (position : Vector3 K) : Enemy K :=
  { position := position, velocity := Vector3.zero, mass := 1, health := 100, alive := true }

/-- The constructor `Player(position)` with its defaults: zero velocity, `mass = 1`,
`health = 100`; `alive` starts true, `score` 0 and the bullet vector empty. -/
def Player.mk0 (position : Vector3 K) : Player K :=
  { position := position, velocity := Vector3.zero, mass := 1, health := 100, alive := true,
    bullets := [], score := 0 }

/-! ## Constants -/

/-- The constant `MAX_BULLETS`. -/
def MAX_BULLETS : Nat := 100

/-- The constant `MAX_ENEMIES`. -/
def MAX_ENEMIES : Nat := 10

/-- The constant `BULLET_SPEED`. -/
def BULLET_SPEED : K := 50

/-- The constant `WORLD_SIZE_X`. -/
def WORLD_SIZE_X : K := 100

/-- The constant `WORLD_SIZE_Y`. -/
def WORLD_SIZE_Y : K := 100

/-- The constant `WORLD_SIZE_Z`. -/
def WORLD_SIZE_Z : K := 100

/-- The cast `(int)WORLD_SIZE_X` (and likewise for Y and Z): the double 100 truncates to 100. -/
def WORLD_SIZE_INT : Nat := 100

/-- The state before the first iteration of `main`: `player(Vector3(0, 0, -50))`, an empty
`enemies` vector and the zero-initialised global `timeElapsed`. -/
def initialWorld : World K :=
  { player := Player.mk0 ⟨0, 0, -50⟩, enemies := [], timeElapsed := 0 }

/-! ## Helper functions -/

/-- The function `checkCollision(a, b)`. -/
def checkCollision (sqrt : K → K) (a b : Object K) : Bool :=
  decide ((a.position.sub b.position).length sqrt < 1)

/-- The function `checkOutOfBound(o)`. -/
def checkOutOfBound (o : Object K) : Bool :=
  decide (o.position.x < -WORLD_SIZE_X / 2) || decide (o.position.x > WORLD_SIZE_X / 2) ||
  decide (o.position.y < -WORLD_SIZE_Y / 2) || decide (o.position.y > WORLD_SIZE_Y / 2) ||
  decide (o.position.z < -WORLD_SIZE_Z / 2) || decide (o.position.z > WORLD_SIZE_Z / 2)

/-- The function `spawnEnemy()`; `rx`, `ry`, `rz` are the values the three calls of `rand()`
return (non-negative) for the x, y and z coordinate. -/
def spawnEnemy (s : World K) (rx ry rz : Nat) : World K :=
  if s.enemies.length < MAX_ENEMIES then
    let enemy : Enemy K :=
      Enemy.mk0 ⟨((rx % WORLD_SIZE_INT : Nat) : K) - WORLD_SIZE_X / 2,
                 ((ry % WORLD_SIZE_INT : Nat) : K) - WORLD_SIZE_Y / 2,
                 ((rz % WORLD_SIZE_INT : Nat) : K) - WORLD_SIZE_Z / 2⟩
    { s with enemies := s.enemies ++ [enemy] }
  else s

/-- The function `shootBullet()`. -/
def shootBullet (s : World K) : World K :=
  let bullet : Bullet K :=
    Bullet.mk0 (s.player.position.add ⟨0, 0, BULLET_SPEED⟩)
               (s.player.velocity.add ⟨0, 0, BULLET_SPEED⟩)
  let bullets := s.player.bullets ++ [bullet]
  let bullets := if bullets.length > MAX_BULLETS then bullets.eraseIdx 0 else bullets
  { s with player := { s.player with bullets := bullets } }

/-! ## Collision passes -/

/-- One iteration of the loop of `handlePlayerEnemyCollision` up to (not including) the test
`player.health <= 0`: the `if (checkCollision(player, enemies[i]))` statement. -/
def playerEnemyHit (sqrt : K → K) (s : World K) (i : Nat) (h : i < s.enemies.length) :
    World K :=
  if checkCollision sqrt s.player.toObject (s.enemies.get ⟨i, h⟩).toObject then
    { s with
      player := { s.player with health := s.player.health - (s.enemies.get ⟨i, h⟩).health }
      enemies := s.enemies.set i { s.enemies.get ⟨i, h⟩ with health := 0, alive := false } }
  else s

/-- The loop of `handlePlayerEnemyCollision`, entered with loop index `i`. -/
def handlePlayerEnemyCollisionLoop (sqrt : K → K) (s : World K) (i : Nat) : World K :=
  if h : i < s.enemies.length then
    if (playerEnemyHit sqrt s i h).player.health ≤ 0 then
      { playerEnemyHit sqrt s i h with
        player := { (playerEnemyHit sqrt s i h).player with alive := false } }
    else handlePlayerEnemyCollisionLoop sqrt (playerEnemyHit sqrt s i h) (i + 1)
  else s
termination_by s.enemies.length - i
decreasing_by
  have hlen : (playerEnemyHit sqrt s i h).enemies.length = s.enemies.length := by
    unfold playerEnemyHit
    split <;> simp
  rw [hlen]
  omega

/-- The function `handlePlayerEnemyCollision()`. -/
def handlePlayerEnemyCollision (sqrt : K → K) (s : World K) : World K :=
  handlePlayerEnemyCollisionLoop sqrt s 0

/-- The inner loop of `handleBulletEnemyCollision` for bullet `i`, entered with index `j`. -/
def bulletEnemyInner (sqrt : K → K) (s : World K) (i : Nat) (hi : i < s.player.bullets.length)
    (j : Nat) : World K :=
  if hj : j < s.enemies.length then
    if checkCollision sqrt (s.player.bullets.get ⟨i, hi⟩).toObject
        (s.enemies.get ⟨j, hj⟩).toObject then
      let bullet : Bullet K := { s.player.bullets.get ⟨i, hi⟩ with active := false }
      let enemy : Enemy K :=
        { s.enemies.get ⟨j, hj⟩ with health := (s.enemies.get ⟨j, hj⟩).health - bullet.damage }
      if enemy.health ≤ 0 then
        { s with
          player := { s.player with bullets := s.player.bullets.set i bullet,
                                    score := s.player.score + 10 }
          enemies := s.enemies.set j { enemy with alive := false } }
      else
        { s with
          player := { s.player with bullets := s.player.bullets.set i bullet }
          enemies := s.enemies.set j enemy }
    else bulletEnemyInner sqrt s i hi (j + 1)
  else s
termination_by s.enemies.length - j

/-- The outer loop of `handleBulletEnemyCollision`, entered with index `i`. -/
def handleBulletEnemyCollisionLoop (sqrt : K → K) (s : World K) (i : Nat) : World K :=
  if hi : i < s.player.bullets.length then
    handleBulletEnemyCollisionLoop sqrt (bulletEnemyInner sqrt s i hi 0) (i + 1)
  else s
termination_by s.player.bullets.length - i
decreasing_by
  have hlen : ∀ j, (bulletEnemyInner sqrt s i hi j).player.bullets.length
      = s.player.bullets.length := by
    intro j
    induction j using Nat.strongRecMeasure (fun j => s.enemies.length - j) with
    | ind j ih =>
      rw [bulletEnemyInner]
      split
      · split
        · dsimp only
          split <;> simp
        · exact ih (j + 1) (by omega)
      · rfl
  rw [hlen]
  omega

/-- The function `handleBulletEnemyCollision()`. -/
def handleBulletEnemyCollision (sqrt : K → K) (s : World K) : World K :=
  handleBulletEnemyCollisionLoop sqrt s 0

/-! ## The tick -/

/-- The first `for` loop of `updateGameLogic`, entered with index `i`: integrate each bullet
and mark it inactive when it is out of the world. -/
def updateBulletsLoop (dt : K) (bullets : List (Bullet K)) (i : Nat) : List (Bullet K) :=
  if h : i < bullets.length then
    let moved : Bullet K :=
      { bullets.get ⟨i, h⟩ with toObject := (bullets.get ⟨i, h⟩).toObject.update dt }
    let checked : Bullet K :=
      if checkOutOfBound moved.toObject then { moved with active := false } else moved
    updateBulletsLoop dt (bullets.set i checked) (i + 1)
  else bullets
termination_by bullets.length - i
decreasing_by
  simp only [List.length_set]
  omega

/-- The second `for` loop of `updateGameLogic`, entered with index `i`: integrate each enemy
and mark it dead when it is out of the world. -/
def updateEnemiesLoop (dt : K) (enemies : List (Enemy K)) (i : Nat) : List (Enemy K) :=
  if h : i < enemies.length then
    let moved : Enemy K :=
      { enemies.get ⟨i, h⟩ with toObject := (enemies.get ⟨i, h⟩).toObject.update dt }
    let checked : Enemy K :=
      if checkOutOfBound moved.toObject then { moved with alive := false } else moved
    updateEnemiesLoop dt (enemies.set i checked) (i + 1)
  else enemies
termination_by enemies.length - i
decreasing_by
  simp only [List.length_set]
  omega

/-- The bullet erase loop of `updateGameLogic`, entered with index `i`. After an erase the
source runs `i--` and then the loop's `i++`, so the next test sees the same `i`. -/
def eraseInactiveLoop (bullets : List (Bullet K)) (i : Nat) : List (Bullet K) :=
  if h : i < bullets.length then
    if !(bullets.get ⟨i, h⟩).active then eraseInactiveLoop (bullets.eraseIdx i) i
    else eraseInactiveLoop bullets (i + 1)
  else bullets
termination_by bullets.length - i
decreasing_by
  · simp only [List.length_eraseIdx, h, if_true]
    omega
  · omega

/-- The enemy erase loop of `updateGameLogic`, entered with index `i`. After an erase the
source runs `i--` and then the loop's `i++`, so the next test sees the same `i`. -/
def eraseDeadLoop (enemies : List (Enemy K)) (i : Nat) : List (Enemy K) :=
  if h : i < enemies.length then
    if !(enemies.get ⟨i, h⟩).alive then eraseDeadLoop (enemies.eraseIdx i) i
    else eraseDeadLoop enemies (i + 1)
  else enemies
termination_by enemies.length - i
decreasing_by
  · simp only [List.length_eraseIdx, h, if_true]
    omega
  · omega

/-- The function `updateGameLogic(dt)`; `rx`, `ry`, `rz` are the values `rand()` returns if
`spawnEnemy` draws a position in this tick. -/
def updateGameLogic (sqrt : K → K) (s : World K) (dt : K) (rx ry rz : Nat) : World K :=
  let s : World K := { s with player := { s.player with toObject := s.player.toObject.update dt } }
  let s : World K :=
    { s with player := { s.player with bullets := updateBulletsLoop dt s.player.bullets 0 } }
  let s : World K := { s with enemies := updateEnemiesLoop dt s.enemies 0 }
  let s := handlePlayerEnemyCollision sqrt s
  let s := handleBulletEnemyCollision sqrt s
  let s : World K :=
    { s with player := { s.player with bullets := eraseInactiveLoop s.player.bullets 0 } }
  let s : World K := { s with enemies := eraseDeadLoop s.enemies 0 }
  let s : World K := { s with timeElapsed := s.timeElapsed + dt }
  if s.timeElapsed > 10 then
    let s := spawnEnemy s rx ry rz
    { s with timeElapsed := s.timeElapsed - 10 }
  else s

/-- The function `restartGame()`. -/
def restartGame (s : World K) : World K :=
  { player :=
      { s.player with
        position := ⟨0, 0, -50⟩
        velocity := Vector3.zero
        health := 100
        alive := true
        bullets := []
        score := 0 }
    enemies := []
    timeElapsed := 0 }

/-- A firing sequence, as a test drives it: one call of `shootBullet` for each entry of `shots`,
the player standing at position `p.1` with velocity `p.2` when that shot is fired. -/
def fireEach (s : World K) : List (Vector3 K × Vector3 K) → World K
  | [] => s
  | p :: shots =>
    fireEach (shootBullet { s with player := { s.player with position := p.1, velocity := p.2 } })
      shots

/-- The bullet `shootBullet` creates for a player at `position` moving with `velocity`, written
out field by field. -/
def firedBullet (position velocity : Vector3 K) : Bullet K :=
  { position := ⟨position.x + 0, position.y + 0, position.z + 50⟩
    velocity := ⟨velocity.x + 0, velocity.y + 0, velocity.z + 50⟩
    mass := 0.01
    damage := 10
    active := true }

/-! ## Reachable states -/

/-- The states the program can be in between two statements of `main`: the initial state, and
what a fire command (`shootBullet`), a tick (`updateGameLogic`, any `dt`, any values of
`rand()`) or a restart (`restartGame`) makes of such a state. -/
inductive Reachable (sqrt : K → K) : World K → Prop
  | init : Reachable sqrt initialWorld
  | fire (s : World K) : Reachable sqrt s → Reachable sqrt (shootBullet s)
  | tick (s : World K) (dt : K) (rx ry rz : Nat) :
      Reachable sqrt s → Reachable sqrt (updateGameLogic sqrt s dt rx ry rz)
  | restart (s : World K) : Reachable sqrt s → Reachable sqrt (restartGame s)

/-! ## Descriptions used to state the player pass -/

/-- What `handlePlayerEnemyCollision` does to an enemy it visits, for a player at `o`: an
enemy that collides with the player gets health 0 and is marked dead, any other enemy is
left as it is. -/
def struckEnemy (sqrt : K → K) (o : Object K) (e : Enemy K) : Enemy K :=
  if checkCollision sqrt o e.toObject then { e with health := 0, alive := false } else e

/-- The health of a player at `o` that had health `h` before the enemies of `visited` were
visited: every colliding enemy has taken its own health off. -/
def healthAfter (sqrt : K → K) (o : Object K) (h : K) (visited : List (Enemy K)) : K :=
  h - ((visited.filter (fun e => checkCollision sqrt o e.toObject)).map (fun e => e.health)).sum

/-! ## Example states -/

/-- An example state: the initial world with two fresh bullets (damage 10) and one enemy of
health 10, all three at the origin. -/
def twoBulletsOneEnemy : World K :=
  { player :=
      { Player.mk0 ⟨0, 0, -50⟩ with
        bullets := [Bullet.mk0 Vector3.zero Vector3.zero, Bullet.mk0 Vector3.zero Vector3.zero] }
    enemies := [{ Enemy.mk0 Vector3.zero with health := 10 }]
    timeElapsed := 0 }

/-- An example state: the initial world with a full bullet list, one bullet at the origin
followed by 99 bullets at `(1, 1, 1)`. -/
def fullMagazine : World K :=
  { player :=
      { Player.mk0 ⟨0, 0, -50⟩ with
        bullets := Bullet.mk0 Vector3.zero Vector3.zero ::
          List.replicate 99 (Bullet.mk0 ⟨1, 1, 1⟩ Vector3.zero) }
    enemies := []
    timeElapsed := 0 }

/-- An example state: a player of health 100 at the origin and four enemies, of health 60 at
the origin, 5 at `(3, 0, 0)`, 50 at the origin and 7 at the origin. -/
def ambush : World K :=
  { player := Player.mk0 Vector3.zero
    enemies := [{ Enemy.mk0 Vector3.zero with health := 60 },
                { Enemy.mk0 ⟨3, 0, 0⟩ with health := 5 },
                { Enemy.mk0 Vector3.zero with health := 50 },
                { Enemy.mk0 Vector3.zero with health := 7 }]
    timeElapsed := 0 }

/-! ## Descriptions used to state the tick -/

/-- What the first loop of `updateGameLogic` does to one bullet: integrate it, then mark it
inactive if it is out of the world. -/
def movedBullet (dt : K) (b : Bullet K) : Bullet K :=
  if checkOutOfBound (b.toObject.update dt) then
    { b with toObject := b.toObject.update dt, active := false }
  else { b with toObject := b.toObject.update dt }

/-- What the second loop of `updateGameLogic` does to one enemy: integrate it, then mark it
dead if it is out of the world. -/
def movedEnemy (dt : K) (e : Enemy K) : Enemy K :=
  if checkOutOfBound (e.toObject.update dt) then
    { e with toObject := e.toObject.update dt, alive := false }
  else { e with toObject := e.toObject.update dt }

/-- The state of `updateGameLogic(dt)` when it reaches the collision passes: the player and
every bullet and enemy integrated and bounds-checked. -/
def movedWorld (s : World K) (dt : K) : World K :=
  { player := { s.player with toObject := s.player.toObject.update dt
                              bullets := updateBulletsLoop dt s.player.bullets 0 }
    enemies := updateEnemiesLoop dt s.enemies 0
    timeElapsed := s.timeElapsed }

/-- The state of `updateGameLogic(dt)` when it reaches `timeElapsed += dt`: moved, both
collision passes run and both lists compacted. -/
def updateEntities (sqrt : K → K) (s : World K) (dt : K) : World K :=
  let s := handleBulletEnemyCollision sqrt (handlePlayerEnemyCollision sqrt (movedWorld s dt))
  { player := { s.player with bullets := eraseInactiveLoop s.player.bullets 0 }
    enemies := eraseDeadLoop s.enemies 0
    timeElapsed := s.timeElapsed }

/-! ## The loop of `main` -/

/-- What one iteration of the loop of `main` reads: whether the character typed is `S`/`s`
(fire), the values `rand()` returns if an enemy is spawned, and whether the answer to the
game-over prompt (asked only when the player is dead) is `Y`/`y`. The inputs `Q`, `q` and
`N`, `n` end the process and with it the run. -/
structure Input where
  fire : Bool
  rx : Nat
  ry : Nat
  rz : Nat
  restart : Bool

/-- One iteration of the `while (true)` loop of `main`, with `dt = 0.1`. -/
def mainIteration (sqrt : K → K) (s : World K) (inp : Input) : World K :=
  let s := if inp.fire then shootBullet s else s
  let s := updateGameLogic sqrt s 0.1 inp.rx inp.ry inp.rz
  if !s.player.alive then
    if inp.restart then restartGame s else s
  else s

/-- The loop of `main` run for one iteration per entry of `inputs`. -/
def mainLoop (sqrt : K → K) (s : World K) : List Input → World K
  | [] => s
  | inp :: inputs => mainLoop sqrt (mainIteration sqrt s inp) inputs

/-- The enemy `spawnEnemy` creates when `rand()` returns `rx`, `ry`, `rz`, written out field
by field. -/
def spawnedEnemy (rx ry rz : Nat) : Enemy K :=
  { position := ⟨((rx % 100 : Nat) : K) - 50, ((ry % 100 : Nat) : K) - 50,
                 ((rz % 100 : Nat) : K) - 50⟩
    velocity := ⟨0, 0, 0⟩
    mass := 1
    health := 100
    alive := true }

/-! ## Descriptions used to compare states up to the liveness flags -/

/-- An enemy list without the `alive` flags: the body and the health of every enemy. -/
def enemyData (enemies : List (Enemy K)) : List (Object K × K) :=
  enemies.map (fun e => (e.toObject, e.health))

/-- A bullet list without the `active` flags: the body and the damage of every bullet. -/
def bulletData (bullets : List (Bullet K)) : List (Object K × K) :=
  bullets.map (fun b => (b.toObject, b.damage))

/-- Two states that agree in everything except, possibly, the `active` flags of the bullets
and the `alive` flags of the enemies. -/
def SameButFlags (s t : World K) : Prop :=
  s.player.toObject = t.player.toObject ∧ s.player.health = t.player.health ∧
  s.player.alive = t.player.alive ∧ s.player.score = t.player.score ∧
  s.timeElapsed = t.timeElapsed ∧
  bulletData s.player.bullets = bulletData t.player.bullets ∧
  enemyData s.enemies = enemyData t.enemies

/-- An example state: a player of health 100 at `(0, 60, 0)` with one bullet at
`(50.5, 0, 0)`, an enemy of health 10 at `(50, 0, 0)` and an enemy of health 30 at
`(0, 60.5, 0)`; nothing moves. The bullet and the second enemy are outside the world box. -/
def boundaryDuel : World K :=
  { player := { Player.mk0 ⟨0, 60, 0⟩ with bullets := [Bullet.mk0 ⟨50.5, 0, 0⟩ Vector3.zero] }
    enemies := [{ Enemy.mk0 ⟨50, 0, 0⟩ with health := 10 },
                { Enemy.mk0 ⟨0, 60.5, 0⟩ with health := 30 }]
    timeElapsed := 0 }

/-- The state `s` with every `active` flag and every `alive` flag set to true. -/
def allFlagsSet (s : World K) : World K :=
  { s with
    player := { s.player with
      bullets := s.player.bullets.map (fun b => { b with active := true }) }
    enemies := s.enemies.map (fun e => { e with alive := true }) }

/-- The state `boundaryDuel` after the movement and bounds checks of a tick of 0.1: the bullet
is marked inactive and the second enemy dead. -/
def boundaryDuelMoved : World K :=
  { player :=
      { toObject := (Player.mk0 (⟨0, 60, 0⟩ : Vector3 K)).toObject.update 0.1
        health := 100
        alive := true
        bullets := [{ toObject := (Bullet.mk0 (⟨50.5, 0, 0⟩ : Vector3 K) Vector3.zero).toObject.update 0.1
                      damage := 10
                      active := false }]
        score := 0 }
    enemies := [{ toObject := (Enemy.mk0 (⟨50, 0, 0⟩ : Vector3 K)).toObject.update 0.1
                  health := 10
                  alive := true },
                { toObject := (Enemy.mk0 (⟨0, 60.5, 0⟩ : Vector3 K)).toObject.update 0.1
                  health := 30
                  alive := false }]
    timeElapsed := 0 }

/-- The state `boundaryDuelMoved` after the player pass: the second enemy, although already
marked dead, has taken its health 30 off the player. -/
def boundaryDuelStruck : World K :=
  { player :=
      { toObject := (Player.mk0 (⟨0, 60, 0⟩ : Vector3 K)).toObject.update 0.1
        health := 70
        alive := true
        bullets := [{ toObject := (Bullet.mk0 (⟨50.5, 0, 0⟩ : Vector3 K) Vector3.zero).toObject.update 0.1
                      damage := 10
                      active := false }]
        score := 0 }
    enemies := [{ toObject := (Enemy.mk0 (⟨50, 0, 0⟩ : Vector3 K)).toObject.update 0.1
                  health := 10
                  alive := true },
                { toObject := (Enemy.mk0 (⟨0, 60.5, 0⟩ : Vector3 K)).toObject.update 0.1
                  health := 0
                  alive := false }]
    timeElapsed := 0 }

/-- The state `boundaryDuelStruck` after the bullet pass: the bullet, although already marked
inactive, has killed the first enemy and scored 10. -/
def boundaryDuelShot : World K :=
  { player :=
      { toObject := (Player.mk0 (⟨0, 60, 0⟩ : Vector3 K)).toObject.update 0.1
        health := 70
        alive := true
        bullets := [{ toObject := (Bullet.mk0 (⟨50.5, 0, 0⟩ : Vector3 K) Vector3.zero).toObject.update 0.1
                      damage := 10
                      active := false }]
        score := 10 }
    enemies := [{ toObject := (Enemy.mk0 (⟨50, 0, 0⟩ : Vector3 K)).toObject.update 0.1
                  health := 0
                  alive := false },
                { toObject := (Enemy.mk0 (⟨0, 60.5, 0⟩ : Vector3 K)).toObject.update 0.1
                  health := 0
                  alive := false }]
    timeElapsed := 0 }

/-! ## The invariant of the loop of `main` -/

/-- What holds of every state the loop of `main` reaches from the initial state: the player is
unhurt and has not scored; it has fallen at least as far as its downward speed tells
(`y ≤ -v/20 - v²/19.6` for the speed `v = velocity.y ≤ 0` reached in steps of 0.1 under
gravity -9.8), and the accumulator is at most the time it has been falling; every bullet is
level with the player and falls with it; every enemy is more than 400 above the player and
does not fall faster. -/
def MainInvariant (s : World K) : Prop :=
  s.player.health = 100 ∧ s.player.alive = true ∧ s.player.score = 0 ∧
  s.player.position.y ≤ -s.player.velocity.y / 20 - s.player.velocity.y ^ 2 / 19.6 ∧
  9.8 * s.timeElapsed ≤ -s.player.velocity.y ∧
  (∀ b ∈ s.player.bullets,
    b.position.y = s.player.position.y ∧ b.velocity.y = s.player.velocity.y) ∧
  (∀ e ∈ s.enemies,
    s.player.position.y + 400 < e.position.y ∧ s.player.velocity.y ≤ e.velocity.y)

end Defs

end Bing

namespace Bing

/-! ## Vector3 and collision lemmas -/

section Lemmas

variable {K : Type} [LinearOrderedField K]

theorem Vector3.dot_sub_comm (u v : Vector3 K) :
    (u.sub v).dot (u.sub v) = (v.sub u).dot (v.sub u) := by
  simp only [Vector3.sub, Vector3.dot]
  ring

end Lemmas

theorem Vector3.dist_euclidean (u v : Vector3 ℝ) :
    dist ((WithLp.equiv 2 (Fin 3 → ℝ)).symm ![u.x, u.y, u.z]) ((WithLp.equiv 2 (Fin 3 → ℝ)).symm ![v.x, v.y, v.z])
      = (u.sub v).length Real.sqrt := by
  rw [EuclideanSpace.dist_eq]
  simp only [Vector3.length, Vector3.sub, Vector3.dot, Fin.sum_univ_three, Real.dist_eq, sq_abs]
  congr 1
  simp [pow_two]

theorem checkCollision_real_iff (a b : Object ℝ) :
    checkCollision Real.sqrt a b = true ↔
      (a.position.sub b.position).dot (a.position.sub b.position) < 1 := by
  simp [checkCollision, Vector3.length, Real.sqrt_lt' one_pos]

theorem checkCollision_of_position_eq (a b : Object ℝ) (h : a.position = b.position) :
    checkCollision Real.sqrt a b = true := by
  simp [checkCollision, Vector3.length, Vector3.sub, Vector3.dot, h]

/-- C1: over the reals, `checkCollision a b` is true exactly when the Euclidean distance
between the two positions is strictly less than 1; so it is true for equal positions and
false at distance 1 or more. -/
theorem checkCollision_iff_dist_lt_one (a b : Object ℝ) :
    (checkCollision Real.sqrt a b = true ↔
      dist ((WithLp.equiv 2 (Fin 3 → ℝ)).symm ![a.position.x, a.position.y, a.position.z])
        ((WithLp.equiv 2 (Fin 3 → ℝ)).symm ![b.position.x, b.position.y, b.position.z]) < 1) ∧
    (a.position = b.position → checkCollision Real.sqrt a b = true) ∧
    (1 ≤ dist ((WithLp.equiv 2 (Fin 3 → ℝ)).symm ![a.position.x, a.position.y, a.position.z])
        ((WithLp.equiv 2 (Fin 3 → ℝ)).symm ![b.position.x, b.position.y, b.position.z]) →
      checkCollision Real.sqrt a b = false) := by
  have key : checkCollision Real.sqrt a b = true ↔
      dist ((WithLp.equiv 2 (Fin 3 → ℝ)).symm ![a.position.x, a.position.y, a.position.z])
        ((WithLp.equiv 2 (Fin 3 → ℝ)).symm ![b.position.x, b.position.y, b.position.z]) < 1 := by
    rw [Vector3.dist_euclidean]
    simp [checkCollision]
  refine ⟨key, ?_, ?_⟩
  · intro h
    rw [key, h, dist_self]
    exact one_pos
  · intro h
    rw [← Bool.not_eq_true, key]
    exact not_lt.mpr h

section Contracts

variable {K : Type} [LinearOrderedField K]

/-- C2: `checkCollision a b` equals `checkCollision b a`, for every pair of objects (and
whatever function stands for `sqrt`). -/
theorem checkCollision_symm (sqrt : K → K) (a b : Object K) :
    checkCollision sqrt a b = checkCollision sqrt b a := by
  simp only [checkCollision, Vector3.length, Vector3.dot_sub_comm a.position b.position]

/-- C3: `checkOutOfBound o` is true exactly when some coordinate of the position is
strictly below -50 or strictly above 50; a coordinate of exactly 50 or -50 with the other
two inside is in-bounds, and x = 51 is out of bounds. -/
theorem checkOutOfBound_iff (o : Object K) :
    (checkOutOfBound o = true ↔
      (o.position.x < -50 ∨ 50 < o.position.x) ∨ (o.position.y < -50 ∨ 50 < o.position.y) ∨
        (o.position.z < -50 ∨ 50 < o.position.z)) ∧
    ((o.position.x = 50 ∨ o.position.x = -50) →
      (-50 ≤ o.position.y ∧ o.position.y ≤ 50) → (-50 ≤ o.position.z ∧ o.position.z ≤ 50) →
      checkOutOfBound o = false) ∧
    (o.position.x = 51 → checkOutOfBound o = true) := by
  have h50 : (100 : K) / 2 = 50 := by norm_num
  have hn50 : -(100 : K) / 2 = -50 := by norm_num
  have key : checkOutOfBound o = true ↔
      (o.position.x < -50 ∨ 50 < o.position.x) ∨ (o.position.y < -50 ∨ 50 < o.position.y) ∨
        (o.position.z < -50 ∨ 50 < o.position.z) := by
    simp only [checkOutOfBound, WORLD_SIZE_X, WORLD_SIZE_Y, WORLD_SIZE_Z, h50, hn50,
      Bool.or_eq_true, decide_eq_true_eq, gt_iff_lt]
    tauto
  refine ⟨key, ?_, ?_⟩
  · intro hx hy hz
    rw [← Bool.not_eq_true, key]
    rcases hx with hx | hx <;> rw [hx] <;> intro h <;>
      rcases h with (h | h) | (h | h) | (h | h) <;> linarith [hy.1, hy.2, hz.1, hz.2]
  · intro hx
    rw [key, hx]
    left; right
    norm_num

/-- C4: `update dt` moves the position by the old velocity times `dt`, adds
`(0, -9.8, 0) * dt` to the velocity and keeps the mass. Two steps of `dt` give the velocity
of one step of `2 * dt`, and a position that is the one-step position plus
`(0, -9.8 * dt^2, 0)`, so the two positions agree only for `dt = 0`. -/
theorem update_twice (o : Object K) (dt : K) :
    (o.update dt).position = o.position.add (o.velocity.smul dt) ∧
    (o.update dt).velocity = o.velocity.add (Vector3.smul ⟨0, -9.8, 0⟩ dt) ∧
    (o.update dt).mass = o.mass ∧
    ((o.update dt).update dt).velocity = (o.update (2 * dt)).velocity ∧
    ((o.update dt).update dt).position
      = (o.update (2 * dt)).position.add ⟨0, -9.8 * dt ^ 2, 0⟩ ∧
    (((o.update dt).update dt).position = (o.update (2 * dt)).position ↔ dt = 0) := by
  refine ⟨rfl, rfl, rfl, ?_, ?_, ?_⟩
  · simp only [Object.update, Vector3.add, Vector3.smul, gravity, GRAVITY_CONSTANT,
      Vector3.mk.injEq]
    refine ⟨?_, ?_, ?_⟩ <;> ring
  · simp only [Object.update, Vector3.add, Vector3.smul, gravity, GRAVITY_CONSTANT,
      Vector3.mk.injEq]
    refine ⟨?_, ?_, ?_⟩ <;> ring
  · simp only [Object.update, Vector3.add, Vector3.smul, gravity, GRAVITY_CONSTANT,
      Vector3.mk.injEq]
    constructor
    · rintro ⟨-, hy, -⟩
      have h : (9.8 : K) * dt ^ 2 = 0 := by linear_combination -hy
      have h2 : dt ^ 2 = 0 := by
        rcases mul_eq_zero.mp h with h | h
        · norm_num at h
        · exact h
      exact pow_eq_zero_iff (two_ne_zero) |>.mp h2
    · rintro rfl
      refine ⟨?_, ?_, ?_⟩ <;> ring

/-! ### Firing -/

omit [LinearOrderedField K] in
theorem drop_cap_append (l m : List (Bullet K)) :
    ((l.drop (l.length - 100)) ++ m).drop (((l.drop (l.length - 100)) ++ m).length - 100)
      = (l ++ m).drop ((l ++ m).length - 100) := by
  have h1 : (l ++ m).length - 100
      = (l.length - 100) + (((l.drop (l.length - 100)) ++ m).length - 100) := by
    simp only [List.length_append, List.length_drop]
    omega
  have h2 : (l ++ m).drop (l.length - 100) = l.drop (l.length - 100) ++ m :=
    List.drop_append_of_le_length (by omega)
  rw [h1, ← List.drop_drop, h2]

theorem shootBullet_bullets (s : World K) :
    (shootBullet s).player.bullets
      = if 100 < s.player.bullets.length + 1
        then (s.player.bullets ++ [firedBullet s.player.position s.player.velocity]).eraseIdx 0
        else s.player.bullets ++ [firedBullet s.player.position s.player.velocity] := by
  simp [shootBullet, firedBullet, Bullet.mk0, Vector3.add, BULLET_SPEED, MAX_BULLETS]

theorem shootBullet_bullets_cap (s : World K) (h : s.player.bullets.length ≤ 100) :
    (shootBullet s).player.bullets
      = (s.player.bullets ++ [firedBullet s.player.position s.player.velocity]).drop
          ((s.player.bullets ++ [firedBullet s.player.position s.player.velocity]).length - 100)
      := by
  rw [shootBullet_bullets]
  split
  · have h100 : s.player.bullets.length = 100 := by omega
    simp [h100, List.eraseIdx_zero]
  · have h0 : (s.player.bullets ++ [firedBullet s.player.position s.player.velocity]).length
        - 100 = 0 := by
      simp only [List.length_append, List.length_singleton]
      omega
    rw [h0, List.drop_zero]

theorem fireEach_bullets (shots : List (Vector3 K × Vector3 K)) (s : World K)
    (h : s.player.bullets.length ≤ 100) :
    (fireEach s shots).player.bullets
      = (s.player.bullets ++ shots.map (fun p => firedBullet p.1 p.2)).drop
          ((s.player.bullets ++ shots.map (fun p => firedBullet p.1 p.2)).length - 100) := by
  induction shots generalizing s with
  | nil =>
    have h0 : s.player.bullets.length - 100 = 0 := by omega
    simp [fireEach, h0]
  | cons p shots ih =>
    have hcap := shootBullet_bullets_cap
      { s with player := { s.player with position := p.1, velocity := p.2 } } h
    have hlen : (shootBullet
        { s with player := { s.player with position := p.1, velocity := p.2 } }).player.bullets.length
        ≤ 100 := by
      rw [hcap]
      simp only [List.length_drop, List.length_append, List.length_singleton]
      omega
    rw [fireEach, ih _ hlen, hcap, drop_cap_append]
    simp

/-- C5: from a bullet list of length `n ≤ 100`, `shootBullet` appends the new bullet (player
position and velocity each plus `(0, 0, 50)`, mass 0.01, damage 10, active) and, when the
length becomes 101, erases index 0; the result is the last `min (n + 1) 100` elements of the
old list followed by the new bullet, and nothing else in the state changes. Firing 101 times
from an empty list leaves the 100 bullets of the 2nd to the 101st shot, in firing order. -/
theorem shootBullet_fifo (s : World K) (h : s.player.bullets.length ≤ 100) :
    (shootBullet s).player.bullets
      = (if s.player.bullets.length + 1 = 101
         then (s.player.bullets ++ [firedBullet s.player.position s.player.velocity]).eraseIdx 0
         else s.player.bullets ++ [firedBullet s.player.position s.player.velocity]) ∧
    (shootBullet s).player.bullets
      = (s.player.bullets ++ [firedBullet s.player.position s.player.velocity]).drop
          ((s.player.bullets.length + 1) - min (s.player.bullets.length + 1) 100) ∧
    (shootBullet s).player.bullets.length = min (s.player.bullets.length + 1) 100 ∧
    (shootBullet s).player.toObject = s.player.toObject ∧
    (shootBullet s).player.health = s.player.health ∧
    (shootBullet s).player.alive = s.player.alive ∧
    (shootBullet s).player.score = s.player.score ∧
    (shootBullet s).enemies = s.enemies ∧
    (shootBullet s).timeElapsed = s.timeElapsed ∧
    (∀ shots : List (Vector3 K × Vector3 K), s.player.bullets = [] → shots.length = 101 →
      (fireEach s shots).player.bullets = (shots.drop 1).map (fun p => firedBullet p.1 p.2) ∧
      (fireEach s shots).player.bullets.length = 100) := by
  have hcap := shootBullet_bullets_cap s h
  have hmin : (s.player.bullets ++ [firedBullet s.player.position s.player.velocity]).length
      - 100 = (s.player.bullets.length + 1) - min (s.player.bullets.length + 1) 100 := by
    simp only [List.length_append, List.length_singleton]
    omega
  refine ⟨?_, ?_, ?_, rfl, rfl, rfl, rfl, rfl, rfl, ?_⟩
  · rw [shootBullet_bullets]
    have hiff : (100 < s.player.bullets.length + 1) ↔ (s.player.bullets.length + 1 = 101) := by
      omega
    simp only [hiff]
  · rw [hcap, hmin]
  · rw [hcap]
    simp only [List.length_drop, List.length_append, List.length_singleton]
    omega
  · intro shots hnil hlen
    have hfe := fireEach_bullets shots s h
    rw [hnil] at hfe
    simp only [List.nil_append, List.length_map, hlen] at hfe
    rw [hfe]
    constructor
    · simp
    · simp [hlen]

/-- A full list of 100 bullets: the shot drops the bullet at index 0 and keeps the other 99
in order, followed by the new bullet. -/
theorem shootBullet_fifo_witness :
    (fullMagazine : World ℚ).player.bullets.length ≤ 100 ∧
    (shootBullet (fullMagazine : World ℚ)).player.bullets
      = List.replicate 99 (Bullet.mk0 ⟨1, 1, 1⟩ Vector3.zero) ++ [firedBullet ⟨0, 0, -50⟩ ⟨0, 0, 0⟩]
      := by
  have hlen : (fullMagazine : World ℚ).player.bullets.length ≤ 100 := by
    simp [fullMagazine, Player.mk0]
  refine ⟨hlen, ?_⟩
  rw [(shootBullet_fifo fullMagazine hlen).1]
  simp [fullMagazine, Player.mk0, Vector3.zero]

/-! ### Bullet against enemy -/

theorem bulletEnemyInner_miss (sqrt : K → K) (s : World K) (i : Nat)
    (hi : i < s.player.bullets.length) (j0 : Nat)
    (hmiss : ∀ (j : Nat) (hj : j < s.enemies.length), j0 ≤ j →
      checkCollision sqrt (s.player.bullets.get ⟨i, hi⟩).toObject
        (s.enemies.get ⟨j, hj⟩).toObject = false) :
    bulletEnemyInner sqrt s i hi j0 = s := by
  induction j0 using Nat.strongRecMeasure (fun j => s.enemies.length - j) with
  | ind j0 ih =>
    rw [bulletEnemyInner]
    split
    · rename_i hj
      rw [if_neg (by rw [hmiss j0 hj le_rfl]; exact Bool.false_ne_true)]
      exact ih (j0 + 1) (by omega) (fun j hj hle => hmiss j hj (by omega))
    · rfl

theorem bulletEnemyInner_hit (sqrt : K → K) (s : World K) (i : Nat)
    (hi : i < s.player.bullets.length) (j : Nat) (hj : j < s.enemies.length)
    (hcol : checkCollision sqrt (s.player.bullets.get ⟨i, hi⟩).toObject
      (s.enemies.get ⟨j, hj⟩).toObject = true)
    (j0 : Nat) (hle : j0 ≤ j)
    (hfirst : ∀ (k : Nat) (hk : k < s.enemies.length), j0 ≤ k → k < j →
      checkCollision sqrt (s.player.bullets.get ⟨i, hi⟩).toObject
        (s.enemies.get ⟨k, hk⟩).toObject = false) :
    bulletEnemyInner sqrt s i hi j0 =
      { s with
        player :=
          { s.player with
            bullets := s.player.bullets.set i { s.player.bullets.get ⟨i, hi⟩ with active := false }
            score := s.player.score +
              (if (s.enemies.get ⟨j, hj⟩).health - (s.player.bullets.get ⟨i, hi⟩).damage ≤ 0
               then 10 else 0) }
        enemies := s.enemies.set j
          { s.enemies.get ⟨j, hj⟩ with
            health := (s.enemies.get ⟨j, hj⟩).health - (s.player.bullets.get ⟨i, hi⟩).damage
            alive :=
              if (s.enemies.get ⟨j, hj⟩).health - (s.player.bullets.get ⟨i, hi⟩).damage ≤ 0
              then false else (s.enemies.get ⟨j, hj⟩).alive } } := by
  induction j0 using Nat.strongRecMeasure (fun j => s.enemies.length - j) with
  | ind j0 ih =>
    rw [bulletEnemyInner]
    rcases Nat.eq_or_lt_of_le hle with heq | hlt
    · subst heq
      rw [dif_pos hj, if_pos hcol]
      dsimp only
      split <;> simp
    · have hj0 : j0 < s.enemies.length := by omega
      rw [dif_pos hj0, if_neg (by rw [hfirst j0 hj0 le_rfl hlt]; exact Bool.false_ne_true)]
      exact ih (j0 + 1) (by omega) (by omega) (fun k hk h1 h2 => hfirst k hk (by omega) h2)

/-- C6: the iteration of `handleBulletEnemyCollision` for bullet `i` is the inner loop run
from enemy 0. If bullet `i` collides with no enemy the state is unchanged. Otherwise, with `j`
the lowest index of an enemy colliding with bullet `i`: bullet `i` becomes inactive, enemy
`j` loses the bullet's damage, enemy `j` is marked dead and the score grows by exactly 10
when its new health is `≤ 0` (flag and score are kept otherwise), and nothing else changes,
in particular no enemy at another index. -/
theorem bulletEnemyInner_first_hit (sqrt : K → K) (s : World K) (i : Nat)
    (hi : i < s.player.bullets.length) :
    handleBulletEnemyCollisionLoop sqrt s i
      = handleBulletEnemyCollisionLoop sqrt (bulletEnemyInner sqrt s i hi 0) (i + 1) ∧
    ((∀ (j : Nat) (hj : j < s.enemies.length),
        checkCollision sqrt (s.player.bullets.get ⟨i, hi⟩).toObject
          (s.enemies.get ⟨j, hj⟩).toObject = false) →
      bulletEnemyInner sqrt s i hi 0 = s) ∧
    (∀ (j : Nat) (hj : j < s.enemies.length),
      checkCollision sqrt (s.player.bullets.get ⟨i, hi⟩).toObject
        (s.enemies.get ⟨j, hj⟩).toObject = true →
      (∀ (k : Nat) (hk : k < s.enemies.length), k < j →
        checkCollision sqrt (s.player.bullets.get ⟨i, hi⟩).toObject
          (s.enemies.get ⟨k, hk⟩).toObject = false) →
      (bulletEnemyInner sqrt s i hi 0).player.bullets
        = s.player.bullets.set i { s.player.bullets.get ⟨i, hi⟩ with active := false } ∧
      (bulletEnemyInner sqrt s i hi 0).enemies
        = s.enemies.set j
            { s.enemies.get ⟨j, hj⟩ with
              health := (s.enemies.get ⟨j, hj⟩).health - (s.player.bullets.get ⟨i, hi⟩).damage
              alive :=
                if (s.enemies.get ⟨j, hj⟩).health - (s.player.bullets.get ⟨i, hi⟩).damage ≤ 0
                then false else (s.enemies.get ⟨j, hj⟩).alive } ∧
      (bulletEnemyInner sqrt s i hi 0).player.score
        = s.player.score +
            (if (s.enemies.get ⟨j, hj⟩).health - (s.player.bullets.get ⟨i, hi⟩).damage ≤ 0
             then 10 else 0) ∧
      (∀ k : Nat, k ≠ j → (bulletEnemyInner sqrt s i hi 0).enemies[k]? = s.enemies[k]?) ∧
      (bulletEnemyInner sqrt s i hi 0).player.toObject = s.player.toObject ∧
      (bulletEnemyInner sqrt s i hi 0).player.health = s.player.health ∧
      (bulletEnemyInner sqrt s i hi 0).player.alive = s.player.alive ∧
      (bulletEnemyInner sqrt s i hi 0).timeElapsed = s.timeElapsed) := by
  refine ⟨?_, ?_, ?_⟩
  · rw [handleBulletEnemyCollisionLoop, dif_pos hi]
  · intro hmiss
    exact bulletEnemyInner_miss sqrt s i hi 0 (fun j hj _ => hmiss j hj)
  · intro j hj hcol hfirst
    rw [bulletEnemyInner_hit sqrt s i hi j hj hcol 0 (Nat.zero_le j)
      (fun k hk _ hlt => hfirst k hk hlt)]
    refine ⟨rfl, rfl, rfl, ?_, rfl, rfl, rfl, rfl⟩
    intro k hk
    exact List.getElem?_set_ne (Ne.symm hk)

/-- Bullet 0 of `twoBulletsOneEnemy` hits the enemy at the origin: score 10, the enemy at
health 0 and dead, bullet 0 inactive and bullet 1 untouched. -/
theorem bulletEnemyInner_first_hit_witness :
    0 < (twoBulletsOneEnemy : World ℝ).player.bullets.length ∧
    (bulletEnemyInner Real.sqrt twoBulletsOneEnemy 0 (Nat.zero_lt_succ 1) 0).player.score = 10 ∧
    (bulletEnemyInner Real.sqrt twoBulletsOneEnemy 0 (Nat.zero_lt_succ 1) 0).enemies
      = [{ Enemy.mk0 Vector3.zero with health := 0, alive := false }] ∧
    (bulletEnemyInner Real.sqrt twoBulletsOneEnemy 0 (Nat.zero_lt_succ 1) 0).player.bullets
      = [{ Bullet.mk0 Vector3.zero Vector3.zero with active := false },
         Bullet.mk0 Vector3.zero Vector3.zero] := by
  have hspec := (bulletEnemyInner_first_hit Real.sqrt (twoBulletsOneEnemy : World ℝ) 0
    (Nat.zero_lt_succ 1)).2.2 0 (Nat.zero_lt_succ 0)
    (checkCollision_of_position_eq _ _ rfl) (fun k _ hk => absurd hk (Nat.not_lt_zero k))
  refine ⟨Nat.zero_lt_succ 1, ?_, ?_, ?_⟩
  · rw [hspec.2.2.1]
    simp [twoBulletsOneEnemy, Player.mk0, Enemy.mk0, Bullet.mk0]
  · rw [hspec.2.1]
    simp [twoBulletsOneEnemy, Player.mk0, Enemy.mk0, Bullet.mk0]
  · rw [hspec.1]
    simp [twoBulletsOneEnemy, Player.mk0, Enemy.mk0, Bullet.mk0]

theorem handleBulletEnemyCollisionLoop_step (sqrt : K → K) (s : World K) (i : Nat)
    (hi : i < s.player.bullets.length) :
    handleBulletEnemyCollisionLoop sqrt s i
      = handleBulletEnemyCollisionLoop sqrt (bulletEnemyInner sqrt s i hi 0) (i + 1) := by
  rw [handleBulletEnemyCollisionLoop, dif_pos hi]

theorem handleBulletEnemyCollisionLoop_done (sqrt : K → K) (s : World K) (i : Nat)
    (hi : s.player.bullets.length ≤ i) :
    handleBulletEnemyCollisionLoop sqrt s i = s := by
  rw [handleBulletEnemyCollisionLoop, dif_neg (by omega)]

theorem handleBulletEnemyCollision_two_bullets (sqrt : K → K) (p : Player K) (es : List (Enemy K)) (t : K)
    (b1 b2 : Bullet K) (j : Nat) (hj : j < es.length)
    (hhealth : (es.get ⟨j, hj⟩).health = 10) (hd1 : b1.damage = 10) (hd2 : b2.damage = 10)
    (hc1 : checkCollision sqrt b1.toObject (es.get ⟨j, hj⟩).toObject = true)
    (hc2 : checkCollision sqrt b2.toObject (es.get ⟨j, hj⟩).toObject = true)
    (hf1 : ∀ (k : Nat) (hk : k < es.length), k < j →
      checkCollision sqrt b1.toObject (es.get ⟨k, hk⟩).toObject = false)
    (hf2 : ∀ (k : Nat) (hk : k < es.length), k < j →
      checkCollision sqrt b2.toObject (es.get ⟨k, hk⟩).toObject = false) :
    bulletEnemyInner sqrt ⟨{ p with bullets := [b1, b2] }, es, t⟩ 0 (Nat.zero_lt_succ 1) 0
      = ⟨{ p with bullets := [{ b1 with active := false }, b2], score := p.score + 10 },
          es.set j { es.get ⟨j, hj⟩ with health := 0, alive := false }, t⟩ ∧
    handleBulletEnemyCollision sqrt ⟨{ p with bullets := [b1, b2] }, es, t⟩
      = ⟨{ p with bullets := [{ b1 with active := false }, { b2 with active := false }],
                  score := p.score + 20 },
          es.set j { es.get ⟨j, hj⟩ with health := -10, alive := false }, t⟩ := by
  have hh : es[j].health = 10 := hhealth
  have e1 : bulletEnemyInner sqrt ⟨{ p with bullets := [b1, b2] }, es, t⟩ 0
      (Nat.zero_lt_succ 1) 0
      = ⟨{ p with bullets := [{ b1 with active := false }, b2], score := p.score + 10 },
          es.set j { es.get ⟨j, hj⟩ with health := 0, alive := false }, t⟩ := by
    rw [bulletEnemyInner_hit sqrt ⟨{ p with bullets := [b1, b2] }, es, t⟩ 0 (Nat.zero_lt_succ 1)
      j hj hc1 0 (Nat.zero_le j) (fun k hk _ hlt => hf1 k hk hlt)]
    simp [hh, hd1]
  refine ⟨e1, ?_⟩
  have hj1 : j < (es.set j { es.get ⟨j, hj⟩ with health := 0, alive := false }).length := by
    simpa using hj
  rw [handleBulletEnemyCollision,
    handleBulletEnemyCollisionLoop_step sqrt ⟨{ p with bullets := [b1, b2] }, es, t⟩ 0
      (Nat.zero_lt_succ 1),
    e1,
    handleBulletEnemyCollisionLoop_step sqrt
      ⟨{ p with bullets := [{ b1 with active := false }, b2], score := p.score + 10 },
          es.set j { es.get ⟨j, hj⟩ with health := 0, alive := false }, t⟩
      1 (Nat.lt_succ_self 1),
    bulletEnemyInner_hit sqrt
      ⟨{ p with bullets := [{ b1 with active := false }, b2], score := p.score + 10 },
          es.set j { es.get ⟨j, hj⟩ with health := 0, alive := false }, t⟩
      1 (Nat.lt_succ_self 1) j hj1 (by simpa using hc2) 0 (Nat.zero_le j)
      (fun k hk _ hlt => by
        have hk1 : k < es.length := by simpa using hk
        have hne : j ≠ k := by omega
        simpa [List.getElem_set_ne hne] using hf2 k hk1 hlt),
    handleBulletEnemyCollisionLoop_done sqrt _ 2 (by simp)]
  simp [hd2]
  omega

/-- C7, as the code has it: an enemy of health 10 hit by a bullet of damage 10 is left with health 0,
marked dead, and the score grows by exactly 10. The pass never reads the `alive` flag: a
second bullet of damage 10 that also collides with that enemy first takes its health to -10
and is awarded 10 again, so the two hits together add 20 to the score. -/
theorem second_bullet_scores_again (sqrt : K → K) (p : Player K) (es : List (Enemy K)) (t : K)
    (b1 b2 : Bullet K) (j : Nat) (hj : j < es.length)
    (hhealth : (es.get ⟨j, hj⟩).health = 10) (hd1 : b1.damage = 10) (hd2 : b2.damage = 10)
    (hc1 : checkCollision sqrt b1.toObject (es.get ⟨j, hj⟩).toObject = true)
    (hc2 : checkCollision sqrt b2.toObject (es.get ⟨j, hj⟩).toObject = true)
    (hf1 : ∀ (k : Nat) (hk : k < es.length), k < j →
      checkCollision sqrt b1.toObject (es.get ⟨k, hk⟩).toObject = false)
    (hf2 : ∀ (k : Nat) (hk : k < es.length), k < j →
      checkCollision sqrt b2.toObject (es.get ⟨k, hk⟩).toObject = false) :
    bulletEnemyInner sqrt ⟨{ p with bullets := [b1, b2] }, es, t⟩ 0 (Nat.zero_lt_succ 1) 0
      = ⟨{ p with bullets := [{ b1 with active := false }, b2], score := p.score + 10 },
          es.set j { es.get ⟨j, hj⟩ with health := 0, alive := false }, t⟩ ∧
    handleBulletEnemyCollision sqrt ⟨{ p with bullets := [b1, b2] }, es, t⟩
      = ⟨{ p with bullets := [{ b1 with active := false }, { b2 with active := false }],
                  score := p.score + 20 },
          es.set j { es.get ⟨j, hj⟩ with health := -10, alive := false }, t⟩ ∧
    (handleBulletEnemyCollision sqrt ⟨{ p with bullets := [b1, b2] }, es, t⟩).player.score
      = p.score + 20 :=
  have h := handleBulletEnemyCollision_two_bullets sqrt p es t b1 b2 j hj hhealth hd1 hd2 hc1 hc2
    hf1 hf2
  ⟨h.1, h.2, by rw [h.2]⟩


/-- On `twoBulletsOneEnemy` over the reals the pass ends with score 20 and the enemy at
health -10. -/
theorem second_bullet_scores_again_witness :
    (({ Enemy.mk0 Vector3.zero with health := 10 } : Enemy ℝ).health = 10) ∧
    ((Bullet.mk0 Vector3.zero Vector3.zero : Bullet ℝ).damage = 10) ∧
    checkCollision Real.sqrt (Bullet.mk0 Vector3.zero Vector3.zero : Bullet ℝ).toObject
      ({ Enemy.mk0 Vector3.zero with health := 10 } : Enemy ℝ).toObject = true ∧
    (handleBulletEnemyCollision Real.sqrt (twoBulletsOneEnemy : World ℝ)).player.score = 20 ∧
    (handleBulletEnemyCollision Real.sqrt (twoBulletsOneEnemy : World ℝ)).enemies
      = [{ Enemy.mk0 Vector3.zero with health := -10, alive := false }] := by
  have hc : checkCollision Real.sqrt (Bullet.mk0 Vector3.zero Vector3.zero : Bullet ℝ).toObject
      ({ Enemy.mk0 Vector3.zero with health := 10 } : Enemy ℝ).toObject = true :=
    checkCollision_of_position_eq _ _ rfl
  have h := second_bullet_scores_again Real.sqrt (Player.mk0 ⟨0, 0, -50⟩)
    [{ Enemy.mk0 Vector3.zero with health := 10 }] 0
    (Bullet.mk0 Vector3.zero Vector3.zero) (Bullet.mk0 Vector3.zero Vector3.zero)
    0 (Nat.zero_lt_succ 0) rfl rfl rfl hc hc
    (fun k _ hk => absurd hk (Nat.not_lt_zero k)) (fun k _ hk => absurd hk (Nat.not_lt_zero k))
  refine ⟨rfl, rfl, hc, ?_, ?_⟩
  · exact h.2.2.trans (by simp [Player.mk0])
  · exact (congrArg World.enemies h.2.1).trans (by simp [Enemy.mk0])

/-- Two bullets of damage 10 and one enemy of health 10, all at the origin: both bullets
collide with the enemy, and the pass adds 20 to the score, not 10. -/
theorem double_award_counterexample :
    ((twoBulletsOneEnemy : World ℝ).enemies.map (fun e => e.health) = [10]) ∧
    ((twoBulletsOneEnemy : World ℝ).player.bullets.map (fun b => b.damage) = [10, 10]) ∧
    (∀ b ∈ (twoBulletsOneEnemy : World ℝ).player.bullets,
      ∀ e ∈ (twoBulletsOneEnemy : World ℝ).enemies,
        checkCollision Real.sqrt b.toObject e.toObject = true) ∧
    (handleBulletEnemyCollision Real.sqrt (twoBulletsOneEnemy : World ℝ)).player.score
      = (twoBulletsOneEnemy : World ℝ).player.score + 20 ∧
    ¬ ((handleBulletEnemyCollision Real.sqrt (twoBulletsOneEnemy : World ℝ)).player.score
      = (twoBulletsOneEnemy : World ℝ).player.score + 10) := by
  have hc : checkCollision Real.sqrt (Bullet.mk0 Vector3.zero Vector3.zero : Bullet ℝ).toObject
      ({ Enemy.mk0 Vector3.zero with health := 10 } : Enemy ℝ).toObject = true :=
    checkCollision_of_position_eq _ _ rfl
  have h := handleBulletEnemyCollision_two_bullets Real.sqrt (Player.mk0 ⟨0, 0, -50⟩)
    [{ Enemy.mk0 Vector3.zero with health := 10 }] 0
    (Bullet.mk0 Vector3.zero Vector3.zero) (Bullet.mk0 Vector3.zero Vector3.zero)
    0 (Nat.zero_lt_succ 0) rfl rfl rfl hc hc
    (fun k _ hk => absurd hk (Nat.not_lt_zero k)) (fun k _ hk => absurd hk (Nat.not_lt_zero k))
  have hscore : (handleBulletEnemyCollision Real.sqrt (twoBulletsOneEnemy : World ℝ)).player.score
      = (twoBulletsOneEnemy : World ℝ).player.score + 20 :=
    congrArg (fun w => w.player.score) h.2
  refine ⟨by simp [twoBulletsOneEnemy], by simp [twoBulletsOneEnemy, Bullet.mk0], ?_, hscore, ?_⟩
  · intro b hb e he
    simp only [twoBulletsOneEnemy, List.mem_cons, List.mem_singleton, List.not_mem_nil,
      or_false, or_self] at hb he
    subst hb he
    exact hc
  · rw [hscore]
    omega

/-! ### Player against enemy -/

theorem healthAfter_cons (sqrt : K → K) (o : Object K) (h : K) (e : Enemy K)
    (l : List (Enemy K)) :
    healthAfter sqrt o h (e :: l) = healthAfter sqrt o (healthAfter sqrt o h [e]) l := by
  unfold healthAfter
  by_cases hc : checkCollision sqrt o e.toObject = true
  · simp [List.filter, hc]
    ring
  · simp [List.filter, hc]

theorem playerEnemyHit_eq (sqrt : K → K) (w : World K) (pre rest : List (Enemy K))
    (e : Enemy K) (hw : w.enemies = pre ++ e :: rest) (h : pre.length < w.enemies.length) :
    playerEnemyHit sqrt w pre.length h =
      { w with
        player := { w.player with
          health := healthAfter sqrt w.player.toObject w.player.health [e] }
        enemies := pre ++ struckEnemy sqrt w.player.toObject e :: rest } := by
  obtain ⟨p, es, t⟩ := w
  simp only at hw
  subst hw
  have hget : (pre ++ e :: rest).get ⟨pre.length, h⟩ = e := by
    rw [List.get_eq_getElem]
    exact List.getElem_of_append rfl rfl
  unfold playerEnemyHit
  simp only [hget]
  by_cases hc : checkCollision sqrt p.toObject e.toObject = true
  · simp [hc, healthAfter, struckEnemy, List.filter]
  · simp [hc, healthAfter, struckEnemy, List.filter]

theorem handlePlayerEnemyCollisionLoop_step (sqrt : K → K) (w : World K)
    (pre rest : List (Enemy K)) (e : Enemy K) (hw : w.enemies = pre ++ e :: rest) :
    handlePlayerEnemyCollisionLoop sqrt w pre.length =
      if healthAfter sqrt w.player.toObject w.player.health [e] ≤ 0 then
        { w with
          player := { w.player with
            health := healthAfter sqrt w.player.toObject w.player.health [e]
            alive := false }
          enemies := pre ++ struckEnemy sqrt w.player.toObject e :: rest }
      else
        handlePlayerEnemyCollisionLoop sqrt
          { w with
            player := { w.player with
              health := healthAfter sqrt w.player.toObject w.player.health [e] }
            enemies := pre ++ struckEnemy sqrt w.player.toObject e :: rest }
          (pre.length + 1) := by
  have h : pre.length < w.enemies.length := by
    rw [hw]; simp
  rw [handlePlayerEnemyCollisionLoop, dif_pos h, playerEnemyHit_eq sqrt w pre rest e hw h]

theorem handlePlayerEnemyCollisionLoop_end (sqrt : K → K) (w : World K) (i : Nat)
    (h : w.enemies.length ≤ i) : handlePlayerEnemyCollisionLoop sqrt w i = w := by
  rw [handlePlayerEnemyCollisionLoop, dif_neg (by omega)]

theorem handlePlayerEnemyCollisionLoop_stop (sqrt : K → K) (rest : List (Enemy K)) :
    ∀ (pre : List (Enemy K)) (w : World K), w.enemies = pre ++ rest →
    ∀ k : Nat, k < rest.length →
    (∀ m : Nat, m < k →
      0 < healthAfter sqrt w.player.toObject w.player.health (rest.take (m + 1))) →
    healthAfter sqrt w.player.toObject w.player.health (rest.take (k + 1)) ≤ 0 →
    handlePlayerEnemyCollisionLoop sqrt w pre.length =
      { w with
        player := { w.player with
          health := healthAfter sqrt w.player.toObject w.player.health (rest.take (k + 1))
          alive := false }
        enemies := pre ++ ((rest.take (k + 1)).map (struckEnemy sqrt w.player.toObject)
          ++ rest.drop (k + 1)) } := by
  induction rest with
  | nil => intro pre w _ k hk; simp at hk
  | cons e rest ih =>
    intro pre w hw k hk hpos hstop
    rw [handlePlayerEnemyCollisionLoop_step sqrt w pre rest e hw]
    cases k with
    | zero =>
      have h0 : healthAfter sqrt w.player.toObject w.player.health [e] ≤ 0 := by simpa using hstop
      rw [if_pos h0]
      simp
    | succ k =>
      have h0 : 0 < healthAfter sqrt w.player.toObject w.player.health [e] := by
        simpa using hpos 0 (Nat.succ_pos k)
      rw [if_neg (not_le.mpr h0)]
      have hlen : pre.length + 1 = (pre ++ [struckEnemy sqrt w.player.toObject e]).length := by
        simp
      rw [hlen]
      rw [ih (pre ++ [struckEnemy sqrt w.player.toObject e]) _ (by simp) k
        (by simpa using hk)
        (fun m hm => by
          have := hpos (m + 1) (by omega)
          rw [List.take_succ_cons, healthAfter_cons] at this
          exact this)
        (by
          rw [List.take_succ_cons, healthAfter_cons] at hstop
          exact hstop)]
      rw [List.take_succ_cons, healthAfter_cons sqrt w.player.toObject w.player.health e
        (rest.take (k + 1))]
      simp

theorem handlePlayerEnemyCollisionLoop_all (sqrt : K → K) (rest : List (Enemy K)) :
    ∀ (pre : List (Enemy K)) (w : World K), w.enemies = pre ++ rest →
    (∀ m : Nat, m < rest.length →
      0 < healthAfter sqrt w.player.toObject w.player.health (rest.take (m + 1))) →
    handlePlayerEnemyCollisionLoop sqrt w pre.length =
      { w with
        player := { w.player with
          health := healthAfter sqrt w.player.toObject w.player.health rest }
        enemies := pre ++ rest.map (struckEnemy sqrt w.player.toObject) } := by
  induction rest with
  | nil =>
    intro pre w hw _
    rw [handlePlayerEnemyCollisionLoop_end sqrt w pre.length (by simp [hw])]
    obtain ⟨p, es, t⟩ := w
    simp only at hw
    subst hw
    simp [healthAfter]
  | cons e rest ih =>
    intro pre w hw hpos
    rw [handlePlayerEnemyCollisionLoop_step sqrt w pre rest e hw]
    have h0 : 0 < healthAfter sqrt w.player.toObject w.player.health [e] := by
      simpa using hpos 0 (by simp)
    rw [if_neg (not_le.mpr h0)]
    have hlen : pre.length + 1 = (pre ++ [struckEnemy sqrt w.player.toObject e]).length := by
      simp
    rw [hlen]
    rw [ih (pre ++ [struckEnemy sqrt w.player.toObject e]) _ (by simp)
      (fun m hm => by
        have := hpos (m + 1) (by simpa using hm)
        rw [List.take_succ_cons, healthAfter_cons] at this
        exact this)]
    rw [healthAfter_cons sqrt w.player.toObject w.player.health e rest]
    simp


/-- C8: `handlePlayerEnemyCollision` visits the enemies in index order. With the player's
health after `m` visits equal to the entry health minus the health of every colliding enemy
among the first `m`: if index `k` is the first after whose visit that health is `≤ 0`, the
pass ends there with `alive` false, the enemies up to `k` that collide set to health 0 and
dead, the other enemies up to `k` and every enemy after `k` unchanged; if there is no such
index every enemy is visited and `alive` keeps its value. -/
theorem handlePlayerEnemyCollision_scan (sqrt : K → K) (s : World K) :
    (∀ k : Nat, k < s.enemies.length →
      (∀ m : Nat, m < k →
        0 < healthAfter sqrt s.player.toObject s.player.health (s.enemies.take (m + 1))) →
      healthAfter sqrt s.player.toObject s.player.health (s.enemies.take (k + 1)) ≤ 0 →
      handlePlayerEnemyCollision sqrt s =
        { s with
          player := { s.player with
            health := healthAfter sqrt s.player.toObject s.player.health (s.enemies.take (k + 1))
            alive := false }
          enemies := (s.enemies.take (k + 1)).map (struckEnemy sqrt s.player.toObject)
            ++ s.enemies.drop (k + 1) }) ∧
    ((∀ m : Nat, m < s.enemies.length →
        0 < healthAfter sqrt s.player.toObject s.player.health (s.enemies.take (m + 1))) →
      handlePlayerEnemyCollision sqrt s =
        { s with
          player := { s.player with
            health := healthAfter sqrt s.player.toObject s.player.health s.enemies }
          enemies := s.enemies.map (struckEnemy sqrt s.player.toObject) }) := by
  constructor
  · intro k hk hpos hstop
    exact handlePlayerEnemyCollisionLoop_stop sqrt s.enemies [] s rfl k hk hpos hstop
  · intro hpos
    exact handlePlayerEnemyCollisionLoop_all sqrt s.enemies [] s rfl hpos

/-- On `ambush` the player (health 100) loses 60 to enemy 0, misses enemy 1, loses 50 to
enemy 2 and dies there with health -10; enemy 3, although colliding, is not visited. -/
theorem handlePlayerEnemyCollision_scan_witness :
    (handlePlayerEnemyCollision Real.sqrt (ambush : World ℝ)).player.health = -10 ∧
    (handlePlayerEnemyCollision Real.sqrt (ambush : World ℝ)).player.alive = false ∧
    (handlePlayerEnemyCollision Real.sqrt (ambush : World ℝ)).enemies
      = [{ Enemy.mk0 Vector3.zero with health := 0, alive := false },
         { Enemy.mk0 ⟨3, 0, 0⟩ with health := 5 },
         { Enemy.mk0 Vector3.zero with health := 0, alive := false },
         { Enemy.mk0 Vector3.zero with health := 7 }] := by
  have hc0 : ∀ h : ℝ, checkCollision Real.sqrt (Player.mk0 Vector3.zero : Player ℝ).toObject
      ({ Enemy.mk0 Vector3.zero with health := h } : Enemy ℝ).toObject = true :=
    fun h => checkCollision_of_position_eq _ _ rfl
  have hc1 : checkCollision Real.sqrt (Player.mk0 Vector3.zero : Player ℝ).toObject
      ({ Enemy.mk0 ⟨3, 0, 0⟩ with health := 5 } : Enemy ℝ).toObject = false := by
    rw [← Bool.not_eq_true, checkCollision_real_iff]
    norm_num [Vector3.sub, Vector3.dot, Enemy.mk0, Player.mk0, Vector3.zero]
  have h := (handlePlayerEnemyCollision_scan Real.sqrt (ambush : World ℝ)).1 2
    (by simp [ambush])
    (by
      intro m hm
      interval_cases m
      · simp [ambush, healthAfter, List.filter, hc0]
        norm_num [Player.mk0]
      · simp [ambush, healthAfter, List.filter, hc0, hc1]
        norm_num [Player.mk0])
    (by
      simp [ambush, healthAfter, List.filter, hc0, hc1]
      norm_num [Player.mk0])
  rw [h]
  refine ⟨?_, rfl, ?_⟩
  · simp [ambush, healthAfter, List.filter, hc0, hc1]
    norm_num [Player.mk0]
  · simp [ambush, struckEnemy, hc0, hc1]


/-! ### The player's mass is never written -/

theorem bulletEnemyInner_toObject (sqrt : K → K) (s : World K) (i : Nat)
    (hi : i < s.player.bullets.length) (j : Nat) :
    (bulletEnemyInner sqrt s i hi j).player.toObject = s.player.toObject := by
  induction j using Nat.strongRecMeasure (fun j => s.enemies.length - j) with
  | ind j ih =>
    rw [bulletEnemyInner]
    split
    · split
      · dsimp only
        split <;> rfl
      · exact ih (j + 1) (by omega)
    · rfl

theorem bulletEnemyInner_bullets_length (sqrt : K → K) (s : World K) (i : Nat)
    (hi : i < s.player.bullets.length) (j : Nat) :
    (bulletEnemyInner sqrt s i hi j).player.bullets.length = s.player.bullets.length := by
  induction j using Nat.strongRecMeasure (fun j => s.enemies.length - j) with
  | ind j ih =>
    rw [bulletEnemyInner]
    split
    · split
      · dsimp only
        split <;> simp
      · exact ih (j + 1) (by omega)
    · rfl

theorem handleBulletEnemyCollisionLoop_toObject (sqrt : K → K) (n : Nat) :
    ∀ (s : World K) (i : Nat), s.player.bullets.length - i = n →
      (handleBulletEnemyCollisionLoop sqrt s i).player.toObject = s.player.toObject := by
  induction n with
  | zero =>
    intro s i h
    rw [handleBulletEnemyCollisionLoop_done sqrt s i (by omega)]
  | succ n ih =>
    intro s i h
    have hi : i < s.player.bullets.length := by omega
    rw [handleBulletEnemyCollisionLoop_step sqrt s i hi,
      ih _ (i + 1) (by rw [bulletEnemyInner_bullets_length]; omega),
      bulletEnemyInner_toObject]

theorem playerEnemyHit_toObject (sqrt : K → K) (s : World K) (i : Nat)
    (h : i < s.enemies.length) :
    (playerEnemyHit sqrt s i h).player.toObject = s.player.toObject := by
  unfold playerEnemyHit
  split <;> rfl

theorem playerEnemyHit_length (sqrt : K → K) (s : World K) (i : Nat)
    (h : i < s.enemies.length) :
    (playerEnemyHit sqrt s i h).enemies.length = s.enemies.length := by
  unfold playerEnemyHit
  split <;> simp

theorem handlePlayerEnemyCollisionLoop_toObject (sqrt : K → K) (n : Nat) :
    ∀ (s : World K) (i : Nat), s.enemies.length - i = n →
      (handlePlayerEnemyCollisionLoop sqrt s i).player.toObject = s.player.toObject := by
  induction n with
  | zero =>
    intro s i h
    rw [handlePlayerEnemyCollisionLoop_end sqrt s i (by omega)]
  | succ n ih =>
    intro s i h
    have hi : i < s.enemies.length := by omega
    rw [handlePlayerEnemyCollisionLoop, dif_pos hi]
    split
    · exact playerEnemyHit_toObject sqrt s i hi
    · rw [ih _ (i + 1) (by rw [playerEnemyHit_length]; omega), playerEnemyHit_toObject]

theorem updateGameLogic_player_mass (sqrt : K → K) (s : World K) (dt : K) (rx ry rz : Nat) :
    (updateGameLogic sqrt s dt rx ry rz).player.mass = s.player.mass := by
  have hspawn : ∀ w : World K, (spawnEnemy w rx ry rz).player = w.player := by
    intro w
    unfold spawnEnemy
    split <;> rfl
  unfold updateGameLogic
  dsimp only
  split
  · rw [hspawn]
    dsimp only
    rw [handleBulletEnemyCollision, handleBulletEnemyCollisionLoop_toObject sqrt _ _ 0 rfl,
      handlePlayerEnemyCollision, handlePlayerEnemyCollisionLoop_toObject sqrt _ _ 0 rfl]
    rfl
  · dsimp only
    rw [handleBulletEnemyCollision, handleBulletEnemyCollisionLoop_toObject sqrt _ _ 0 rfl,
      handlePlayerEnemyCollision, handlePlayerEnemyCollisionLoop_toObject sqrt _ _ 0 rfl]
    rfl

theorem Reachable.player_mass (sqrt : K → K) (s : World K) (h : Reachable sqrt s) :
    s.player.mass = 1 := by
  induction h with
  | init => rfl
  | fire s _ ih => exact ih
  | tick s dt rx ry rz _ ih => rw [updateGameLogic_player_mass]; exact ih
  | restart s _ ih => exact ih

/-! ### Spawning and restarting -/

/-- C9: with 10 or more enemies in the list `spawnEnemy` returns the state unchanged; with
fewer than 10 it appends exactly one enemy at the end (alive, health 100, zero velocity,
mass 1, each coordinate `rand() % 100 - 50`) and changes nothing else, so the enemies
already there keep their order and values. -/
theorem spawnEnemy_cap (s : World K) (rx ry rz : Nat) :
    (10 ≤ s.enemies.length → spawnEnemy s rx ry rz = s) ∧
    (s.enemies.length < 10 →
      spawnEnemy s rx ry rz =
        { s with
          enemies := s.enemies ++
            [{ position := ⟨((rx % 100 : Nat) : K) - 50, ((ry % 100 : Nat) : K) - 50,
                            ((rz % 100 : Nat) : K) - 50⟩
               velocity := ⟨0, 0, 0⟩
               mass := 1
               health := 100
               alive := true }] }) := by
  have h50 : (100 : K) / 2 = 50 := by norm_num
  constructor
  · intro h
    rw [spawnEnemy, if_neg (by simp only [MAX_ENEMIES]; omega)]
  · intro h
    rw [spawnEnemy, if_pos (by simp only [MAX_ENEMIES]; omega)]
    simp only [Enemy.mk0, Vector3.zero, WORLD_SIZE_INT, WORLD_SIZE_X, WORLD_SIZE_Y,
      WORLD_SIZE_Z, h50]

/-- With four enemies and `rand()` returning 250, 7 and 99, the fifth enemy is appended at
`(0, -43, 49)`. -/
theorem spawnEnemy_cap_witness :
    (spawnEnemy (ambush : World ℚ) 250 7 99).enemies.length = 5 ∧
    (spawnEnemy (ambush : World ℚ) 250 7 99).enemies.getLast? =
      some { position := ⟨0, -43, 49⟩, velocity := ⟨0, 0, 0⟩, mass := 1, health := 100,
             alive := true } := by
  have h := (spawnEnemy_cap (ambush : World ℚ) 250 7 99).2 (by simp [ambush])
  rw [h]
  constructor
  · simp [ambush]
  · simp
    norm_num

/-- C10: from every state `restartGame` gives player position `(0, 0, -50)`, velocity
`(0, 0, 0)`, health 100, alive, score 0, no bullets, no enemies and elapsed time 0. These are
the values of the state before the first iteration of `main`; the one field `restartGame`
does not assign is the player's mass, which no function of the program ever writes, so the
result is that initial state exactly when the mass still has its initial value 1.
`restartGame` is idempotent. -/
theorem restartGame_initial (s : World K) :
    (restartGame s).player.position = ⟨0, 0, -50⟩ ∧
    (restartGame s).player.velocity = ⟨0, 0, 0⟩ ∧
    (restartGame s).player.health = 100 ∧
    (restartGame s).player.alive = true ∧
    (restartGame s).player.score = 0 ∧
    (restartGame s).player.bullets = [] ∧
    (restartGame s).enemies = [] ∧
    (restartGame s).timeElapsed = 0 ∧
    (restartGame s).player.mass = s.player.mass ∧
    (initialWorld : World K) =
      { player := { position := ⟨0, 0, -50⟩, velocity := ⟨0, 0, 0⟩, mass := 1, health := 100,
                    alive := true, bullets := [], score := 0 }
        enemies := []
        timeElapsed := 0 } ∧
    (restartGame s = initialWorld ↔ s.player.mass = 1) ∧
    (∀ sqrt : K → K, Reachable sqrt s → restartGame s = initialWorld) ∧
    restartGame (initialWorld : World K) = initialWorld ∧
    restartGame (restartGame s) = restartGame s := by
  have hiff : restartGame s = initialWorld ↔ s.player.mass = 1 := by
    constructor
    · intro h
      have := congrArg (fun w => w.player.mass) h
      simpa [restartGame, initialWorld, Player.mk0] using this
    · intro h
      simp [restartGame, initialWorld, Player.mk0, h]
  exact ⟨rfl, rfl, rfl, rfl, rfl, rfl, rfl, rfl, rfl, rfl, hiff,
    fun sqrt h => hiff.mpr (Reachable.player_mass sqrt s h), rfl, rfl⟩

end Contracts

section Compaction

variable {K : Type}

/-! ### The erase loops -/

theorem get_append_length {α : Type} (pre rest : List α) (a : α)
    (h : pre.length < (pre ++ a :: rest).length) :
    (pre ++ a :: rest).get ⟨pre.length, h⟩ = a := by
  rw [List.get_eq_getElem]
  exact List.getElem_of_append rfl rfl

theorem eraseInactiveLoop_append (n : Nat) :
    ∀ pre rest : List (Bullet K), rest.length = n →
      eraseInactiveLoop (pre ++ rest) pre.length
        = pre ++ rest.filter (fun b => b.active) := by
  induction n with
  | zero =>
    intro pre rest hn
    have hnil : rest = [] := List.length_eq_zero.mp hn
    subst hnil
    rw [eraseInactiveLoop, dif_neg (by simp)]
    simp
  | succ n ih =>
    intro pre rest hn
    obtain ⟨b, rest, rfl⟩ := List.exists_cons_of_length_eq_add_one hn
    have h : pre.length < (pre ++ b :: rest).length := by simp
    rw [eraseInactiveLoop, dif_pos h]
    simp only [get_append_length]
    cases hb : b.active with
    | false =>
      have herase : (pre ++ b :: rest).eraseIdx pre.length = pre ++ rest := by
        rw [List.eraseIdx_append_of_length_le (le_refl _)]
        simp
      simp only [Bool.not_false, if_true, herase]
      rw [ih pre rest (by simpa using hn)]
      simp [List.filter, hb]
    | true =>
      have hlen : pre.length + 1 = (pre ++ [b]).length := by simp
      have happ : pre ++ b :: rest = (pre ++ [b]) ++ rest := by simp
      simp only [Bool.not_true, Bool.false_eq_true, if_false]
      rw [hlen, happ, ih (pre ++ [b]) rest (by simpa using hn)]
      simp [List.filter, hb]

theorem eraseDeadLoop_append (n : Nat) :
    ∀ pre rest : List (Enemy K), rest.length = n →
      eraseDeadLoop (pre ++ rest) pre.length
        = pre ++ rest.filter (fun e => e.alive) := by
  induction n with
  | zero =>
    intro pre rest hn
    have hnil : rest = [] := List.length_eq_zero.mp hn
    subst hnil
    rw [eraseDeadLoop, dif_neg (by simp)]
    simp
  | succ n ih =>
    intro pre rest hn
    obtain ⟨b, rest, rfl⟩ := List.exists_cons_of_length_eq_add_one hn
    have h : pre.length < (pre ++ b :: rest).length := by simp
    rw [eraseDeadLoop, dif_pos h]
    simp only [get_append_length]
    cases hb : b.alive with
    | false =>
      have herase : (pre ++ b :: rest).eraseIdx pre.length = pre ++ rest := by
        rw [List.eraseIdx_append_of_length_le (le_refl _)]
        simp
      simp only [Bool.not_false, if_true, herase]
      rw [ih pre rest (by simpa using hn)]
      simp [List.filter, hb]
    | true =>
      have hlen : pre.length + 1 = (pre ++ [b]).length := by simp
      have happ : pre ++ b :: rest = (pre ++ [b]) ++ rest := by simp
      simp only [Bool.not_true, Bool.false_eq_true, if_false]
      rw [hlen, happ, ih (pre ++ [b]) rest (by simpa using hn)]
      simp [List.filter, hb]

theorem eraseInactiveLoop_eq_filter (bullets : List (Bullet K)) :
    eraseInactiveLoop bullets 0 = bullets.filter (fun b => b.active) :=
  eraseInactiveLoop_append bullets.length [] bullets rfl

theorem eraseDeadLoop_eq_filter (enemies : List (Enemy K)) :
    eraseDeadLoop enemies 0 = enemies.filter (fun e => e.alive) :=
  eraseDeadLoop_append enemies.length [] enemies rfl

/-- C12: the two erase loops at the end of `updateGameLogic` are stable filters: the bullet
loop returns exactly the bullets with `active = true`, the enemy loop exactly the enemies
with `alive = true`, each in the original order and unmodified. -/
theorem erase_loops_are_filters (bullets : List (Bullet K)) (enemies : List (Enemy K)) :
    eraseInactiveLoop bullets 0 = bullets.filter (fun b => b.active) ∧
    eraseDeadLoop enemies 0 = enemies.filter (fun e => e.alive) ∧
    (eraseInactiveLoop bullets 0).Sublist bullets ∧
    (eraseDeadLoop enemies 0).Sublist enemies ∧
    (∀ b : Bullet K, b ∈ eraseInactiveLoop bullets 0 ↔ b ∈ bullets ∧ b.active = true) ∧
    (∀ e : Enemy K, e ∈ eraseDeadLoop enemies 0 ↔ e ∈ enemies ∧ e.alive = true) := by
  rw [eraseInactiveLoop_eq_filter, eraseDeadLoop_eq_filter]
  refine ⟨rfl, rfl, List.filter_sublist _, List.filter_sublist _, ?_, ?_⟩
  · intro b
    simp [List.mem_filter]
  · intro e
    simp [List.mem_filter]

/-- Five bullets, the first, second and fourth inactive: the loop keeps the third and the
fifth, in that order. -/
theorem erase_loops_are_filters_witness :
    eraseInactiveLoop
        [({ Bullet.mk0 ⟨1, 0, 0⟩ Vector3.zero with active := false } : Bullet ℚ),
         { Bullet.mk0 ⟨2, 0, 0⟩ Vector3.zero with active := false },
         Bullet.mk0 ⟨3, 0, 0⟩ Vector3.zero,
         { Bullet.mk0 ⟨4, 0, 0⟩ Vector3.zero with active := false },
         Bullet.mk0 ⟨5, 0, 0⟩ Vector3.zero] 0
      = [Bullet.mk0 ⟨3, 0, 0⟩ Vector3.zero, Bullet.mk0 ⟨5, 0, 0⟩ Vector3.zero] := by
  rw [(erase_loops_are_filters _ ([] : List (Enemy ℚ))).1]
  simp [List.filter, Bullet.mk0]

end Compaction

section Tick

variable {K : Type} [LinearOrderedField K]

/-! ### The loops of the tick as maps and filters -/

theorem updateBulletsLoop_append (dt : K) (rest : List (Bullet K)) :
    ∀ pre : List (Bullet K),
      updateBulletsLoop dt (pre ++ rest) pre.length = pre ++ rest.map (movedBullet dt) := by
  induction rest with
  | nil =>
    intro pre
    rw [updateBulletsLoop, dif_neg (by simp)]
    simp
  | cons b rest ih =>
    intro pre
    have h : pre.length < (pre ++ b :: rest).length := by simp
    rw [updateBulletsLoop, dif_pos h]
    simp only [get_append_length]
    have hset : ∀ c : Bullet K, (pre ++ b :: rest).set pre.length c = (pre ++ [c]) ++ rest := by
      intro c
      simp
    have hlen : ∀ c : Bullet K, pre.length + 1 = (pre ++ [c]).length := by
      intro c
      simp
    rw [hset, hlen, ih]
    simp only [movedBullet, List.map_cons, List.append_assoc, List.singleton_append]

theorem updateEnemiesLoop_append (dt : K) (rest : List (Enemy K)) :
    ∀ pre : List (Enemy K),
      updateEnemiesLoop dt (pre ++ rest) pre.length = pre ++ rest.map (movedEnemy dt) := by
  induction rest with
  | nil =>
    intro pre
    rw [updateEnemiesLoop, dif_neg (by simp)]
    simp
  | cons b rest ih =>
    intro pre
    have h : pre.length < (pre ++ b :: rest).length := by simp
    rw [updateEnemiesLoop, dif_pos h]
    simp only [get_append_length]
    have hset : ∀ c : Enemy K, (pre ++ b :: rest).set pre.length c = (pre ++ [c]) ++ rest := by
      intro c
      simp
    have hlen : ∀ c : Enemy K, pre.length + 1 = (pre ++ [c]).length := by
      intro c
      simp
    rw [hset, hlen, ih]
    simp only [movedEnemy, List.map_cons, List.append_assoc, List.singleton_append]

theorem updateBulletsLoop_eq_map (dt : K) (bullets : List (Bullet K)) :
    updateBulletsLoop dt bullets 0 = bullets.map (movedBullet dt) :=
  updateBulletsLoop_append dt bullets []

theorem updateEnemiesLoop_eq_map (dt : K) (enemies : List (Enemy K)) :
    updateEnemiesLoop dt enemies 0 = enemies.map (movedEnemy dt) :=
  updateEnemiesLoop_append dt enemies []



/-! ### What the collision passes leave alone -/

theorem bulletEnemyInner_cases (sqrt : K → K) (s : World K) (i : Nat)
    (hi : i < s.player.bullets.length) (j0 : Nat) :
    bulletEnemyInner sqrt s i hi j0 = s ∨
    ∃ (j : Nat) (hj : j < s.enemies.length),
      checkCollision sqrt (s.player.bullets.get ⟨i, hi⟩).toObject
        (s.enemies.get ⟨j, hj⟩).toObject = true ∧
      bulletEnemyInner sqrt s i hi j0 =
        { s with
          player :=
            { s.player with
              bullets := s.player.bullets.set i
                { s.player.bullets.get ⟨i, hi⟩ with active := false }
              score := s.player.score +
                (if (s.enemies.get ⟨j, hj⟩).health - (s.player.bullets.get ⟨i, hi⟩).damage ≤ 0
                 then 10 else 0) }
          enemies := s.enemies.set j
            { s.enemies.get ⟨j, hj⟩ with
              health := (s.enemies.get ⟨j, hj⟩).health - (s.player.bullets.get ⟨i, hi⟩).damage
              alive :=
                if (s.enemies.get ⟨j, hj⟩).health - (s.player.bullets.get ⟨i, hi⟩).damage ≤ 0
                then false else (s.enemies.get ⟨j, hj⟩).alive } } := by
  induction j0 using Nat.strongRecMeasure (fun j => s.enemies.length - j) with
  | ind j0 ih =>
    by_cases hj0 : j0 < s.enemies.length
    · by_cases hc : checkCollision sqrt (s.player.bullets.get ⟨i, hi⟩).toObject
          (s.enemies.get ⟨j0, hj0⟩).toObject = true
      · right
        exact ⟨j0, hj0, hc, bulletEnemyInner_hit sqrt s i hi j0 hj0 hc j0 le_rfl
          (fun k _ h1 h2 => absurd h2 (by omega))⟩
      · have hstep : bulletEnemyInner sqrt s i hi j0 = bulletEnemyInner sqrt s i hi (j0 + 1) := by
          rw [bulletEnemyInner, dif_pos hj0, if_neg hc]
        rw [hstep]
        exact ih (j0 + 1) (by omega)
    · left
      rw [bulletEnemyInner, dif_neg hj0]

theorem bulletEnemyInner_frame (sqrt : K → K) (s : World K) (i : Nat)
    (hi : i < s.player.bullets.length) (j0 : Nat) :
    (bulletEnemyInner sqrt s i hi j0).player.toObject = s.player.toObject ∧
    (bulletEnemyInner sqrt s i hi j0).player.health = s.player.health ∧
    (bulletEnemyInner sqrt s i hi j0).player.alive = s.player.alive ∧
    (bulletEnemyInner sqrt s i hi j0).timeElapsed = s.timeElapsed ∧
    (bulletEnemyInner sqrt s i hi j0).player.bullets.length = s.player.bullets.length ∧
    (bulletEnemyInner sqrt s i hi j0).enemies.length = s.enemies.length := by
  rcases bulletEnemyInner_cases sqrt s i hi j0 with h | ⟨j, hj, -, h⟩
  · rw [h]
    exact ⟨rfl, rfl, rfl, rfl, rfl, rfl⟩
  · rw [h]
    exact ⟨rfl, rfl, rfl, rfl, by simp, by simp⟩

theorem bulletEnemyInner_enemies_forall (sqrt : K → K) (Pe : Enemy K → Prop)
    (hdead : ∀ (e : Enemy K) (h : K), Pe e → Pe { e with health := h, alive := false })
    (hlive : ∀ (e : Enemy K) (h : K), Pe e → 0 < h → Pe { e with health := h })
    (s : World K) (i : Nat) (hi : i < s.player.bullets.length) (j0 : Nat)
    (hall : ∀ e ∈ s.enemies, Pe e) :
    ∀ e ∈ (bulletEnemyInner sqrt s i hi j0).enemies, Pe e := by
  rcases bulletEnemyInner_cases sqrt s i hi j0 with h | ⟨j, hj, -, h⟩
  · rw [h]
    exact hall
  · rw [h]
    intro e he
    rcases List.mem_or_eq_of_mem_set he with hmem | heq
    · exact hall e hmem
    · subst heq
      have hpe : Pe (s.enemies.get ⟨j, hj⟩) := hall _ (List.get_mem _ _ _)
      by_cases hle : (s.enemies.get ⟨j, hj⟩).health - (s.player.bullets.get ⟨i, hi⟩).damage ≤ 0
      · simp only [hle, if_true]
        exact hdead _ _ hpe
      · simp only [hle, if_false]
        exact hlive _ _ hpe (not_le.mp hle)

theorem bulletEnemyInner_bullets_forall (sqrt : K → K) (Pb : Bullet K → Prop)
    (hoff : ∀ b : Bullet K, Pb b → Pb { b with active := false })
    (s : World K) (i : Nat) (hi : i < s.player.bullets.length) (j0 : Nat)
    (hall : ∀ b ∈ s.player.bullets, Pb b) :
    ∀ b ∈ (bulletEnemyInner sqrt s i hi j0).player.bullets, Pb b := by
  rcases bulletEnemyInner_cases sqrt s i hi j0 with h | ⟨j, hj, -, h⟩
  · rw [h]
    exact hall
  · rw [h]
    intro b hb
    rcases List.mem_or_eq_of_mem_set hb with hmem | heq
    · exact hall b hmem
    · subst heq
      exact hoff _ (hall _ (List.get_mem _ _ _))

theorem handleBulletEnemyCollisionLoop_invariant (sqrt : K → K) (P : World K → Prop)
    (hstep : ∀ (s : World K) (i : Nat) (hi : i < s.player.bullets.length),
      P s → P (bulletEnemyInner sqrt s i hi 0)) (n : Nat) :
    ∀ (s : World K) (i : Nat), s.player.bullets.length - i = n → P s →
      P (handleBulletEnemyCollisionLoop sqrt s i) := by
  induction n with
  | zero =>
    intro s i h hp
    rw [handleBulletEnemyCollisionLoop_done sqrt s i (by omega)]
    exact hp
  | succ n ih =>
    intro s i h hp
    have hi : i < s.player.bullets.length := by omega
    rw [handleBulletEnemyCollisionLoop_step sqrt s i hi]
    exact ih _ (i + 1) (by rw [bulletEnemyInner_bullets_length]; omega) (hstep s i hi hp)

theorem handleBulletEnemyCollision_invariant (sqrt : K → K) (P : World K → Prop)
    (hstep : ∀ (s : World K) (i : Nat) (hi : i < s.player.bullets.length),
      P s → P (bulletEnemyInner sqrt s i hi 0)) (s : World K) (hp : P s) :
    P (handleBulletEnemyCollision sqrt s) :=
  handleBulletEnemyCollisionLoop_invariant sqrt P hstep _ s 0 rfl hp

theorem handlePlayerEnemyCollisionLoop_invariant (sqrt : K → K) (P : World K → Prop)
    (hhit : ∀ (s : World K) (i : Nat) (hi : i < s.enemies.length),
      P s → P (playerEnemyHit sqrt s i hi))
    (hdie : ∀ s : World K, P s → s.player.health ≤ 0 →
      P { s with player := { s.player with alive := false } }) (n : Nat) :
    ∀ (s : World K) (i : Nat), s.enemies.length - i = n → P s →
      P (handlePlayerEnemyCollisionLoop sqrt s i) := by
  induction n with
  | zero =>
    intro s i h hp
    rw [handlePlayerEnemyCollisionLoop_end sqrt s i (by omega)]
    exact hp
  | succ n ih =>
    intro s i h hp
    have hi : i < s.enemies.length := by omega
    rw [handlePlayerEnemyCollisionLoop, dif_pos hi]
    split
    · rename_i hle
      exact hdie _ (hhit s i hi hp) hle
    · exact ih _ (i + 1) (by rw [playerEnemyHit_length]; omega) (hhit s i hi hp)

theorem handlePlayerEnemyCollision_invariant (sqrt : K → K) (P : World K → Prop)
    (hhit : ∀ (s : World K) (i : Nat) (hi : i < s.enemies.length),
      P s → P (playerEnemyHit sqrt s i hi))
    (hdie : ∀ s : World K, P s → s.player.health ≤ 0 →
      P { s with player := { s.player with alive := false } }) (s : World K) (hp : P s) :
    P (handlePlayerEnemyCollision sqrt s) :=
  handlePlayerEnemyCollisionLoop_invariant sqrt P hhit hdie _ s 0 rfl hp


theorem handleBulletEnemyCollision_frame (sqrt : K → K) (s : World K) :
    (handleBulletEnemyCollision sqrt s).player.toObject = s.player.toObject ∧
    (handleBulletEnemyCollision sqrt s).player.health = s.player.health ∧
    (handleBulletEnemyCollision sqrt s).player.alive = s.player.alive ∧
    (handleBulletEnemyCollision sqrt s).timeElapsed = s.timeElapsed ∧
    (handleBulletEnemyCollision sqrt s).player.bullets.length = s.player.bullets.length ∧
    (handleBulletEnemyCollision sqrt s).enemies.length = s.enemies.length := by
  refine handleBulletEnemyCollision_invariant sqrt
    (fun w => w.player.toObject = s.player.toObject ∧ w.player.health = s.player.health ∧
      w.player.alive = s.player.alive ∧ w.timeElapsed = s.timeElapsed ∧
      w.player.bullets.length = s.player.bullets.length ∧
      w.enemies.length = s.enemies.length) ?_ s ⟨rfl, rfl, rfl, rfl, rfl, rfl⟩
  intro w i hi hw
  obtain ⟨h1, h2, h3, h4, h5, h6⟩ := bulletEnemyInner_frame sqrt w i hi 0
  exact ⟨h1.trans hw.1, h2.trans hw.2.1, h3.trans hw.2.2.1, h4.trans hw.2.2.2.1,
    h5.trans hw.2.2.2.2.1, h6.trans hw.2.2.2.2.2⟩

theorem playerEnemyHit_frame (sqrt : K → K) (s : World K) (i : Nat)
    (hi : i < s.enemies.length) :
    (playerEnemyHit sqrt s i hi).player.toObject = s.player.toObject ∧
    (playerEnemyHit sqrt s i hi).player.bullets = s.player.bullets ∧
    (playerEnemyHit sqrt s i hi).player.score = s.player.score ∧
    (playerEnemyHit sqrt s i hi).timeElapsed = s.timeElapsed ∧
    (playerEnemyHit sqrt s i hi).enemies.length = s.enemies.length := by
  unfold playerEnemyHit
  split
  · exact ⟨rfl, rfl, rfl, rfl, by simp⟩
  · exact ⟨rfl, rfl, rfl, rfl, rfl⟩

theorem handlePlayerEnemyCollision_frame (sqrt : K → K) (s : World K) :
    (handlePlayerEnemyCollision sqrt s).player.toObject = s.player.toObject ∧
    (handlePlayerEnemyCollision sqrt s).player.bullets = s.player.bullets ∧
    (handlePlayerEnemyCollision sqrt s).player.score = s.player.score ∧
    (handlePlayerEnemyCollision sqrt s).timeElapsed = s.timeElapsed ∧
    (handlePlayerEnemyCollision sqrt s).enemies.length = s.enemies.length := by
  refine handlePlayerEnemyCollision_invariant sqrt
    (fun w => w.player.toObject = s.player.toObject ∧ w.player.bullets = s.player.bullets ∧
      w.player.score = s.player.score ∧ w.timeElapsed = s.timeElapsed ∧
      w.enemies.length = s.enemies.length) ?_ ?_ s ⟨rfl, rfl, rfl, rfl, rfl⟩
  · intro w i hi hw
    obtain ⟨h1, h2, h3, h4, h5⟩ := playerEnemyHit_frame sqrt w i hi
    exact ⟨h1.trans hw.1, h2.trans hw.2.1, h3.trans hw.2.2.1, h4.trans hw.2.2.2.1,
      h5.trans hw.2.2.2.2⟩
  · intro w hw _
    exact hw

theorem handleBulletEnemyCollision_enemies_forall (sqrt : K → K) (Pe : Enemy K → Prop)
    (hdead : ∀ (e : Enemy K) (h : K), Pe e → Pe { e with health := h, alive := false })
    (hlive : ∀ (e : Enemy K) (h : K), Pe e → 0 < h → Pe { e with health := h })
    (s : World K) (hall : ∀ e ∈ s.enemies, Pe e) :
    ∀ e ∈ (handleBulletEnemyCollision sqrt s).enemies, Pe e :=
  handleBulletEnemyCollision_invariant sqrt (fun w => ∀ e ∈ w.enemies, Pe e)
    (fun w i hi hw => bulletEnemyInner_enemies_forall sqrt Pe hdead hlive w i hi 0 hw) s hall

theorem handleBulletEnemyCollision_bullets_forall (sqrt : K → K) (Pb : Bullet K → Prop)
    (hoff : ∀ b : Bullet K, Pb b → Pb { b with active := false })
    (s : World K) (hall : ∀ b ∈ s.player.bullets, Pb b) :
    ∀ b ∈ (handleBulletEnemyCollision sqrt s).player.bullets, Pb b :=
  handleBulletEnemyCollision_invariant sqrt (fun w => ∀ b ∈ w.player.bullets, Pb b)
    (fun w i hi hw => bulletEnemyInner_bullets_forall sqrt Pb hoff w i hi 0 hw) s hall

theorem handlePlayerEnemyCollision_enemies_forall (sqrt : K → K) (Pe : Enemy K → Prop)
    (hdead : ∀ (e : Enemy K) (h : K), Pe e → Pe { e with health := h, alive := false })
    (s : World K) (hall : ∀ e ∈ s.enemies, Pe e) :
    ∀ e ∈ (handlePlayerEnemyCollision sqrt s).enemies, Pe e := by
  refine handlePlayerEnemyCollision_invariant sqrt (fun w => ∀ e ∈ w.enemies, Pe e) ?_ ?_ s hall
  · intro w i hi hw
    unfold playerEnemyHit
    split
    · intro e he
      rcases List.mem_or_eq_of_mem_set he with hmem | heq
      · exact hw e hmem
      · subst heq
        exact hdead _ _ (hw _ (List.get_mem _ _ _))
    · exact hw
  · intro w hw _
    exact hw

/-! ### The tick, step by step -/

theorem updateEntities_timeElapsed (sqrt : K → K) (s : World K) (dt : K) :
    (updateEntities sqrt s dt).timeElapsed = s.timeElapsed := by
  unfold updateEntities
  dsimp only
  rw [(handleBulletEnemyCollision_frame sqrt _).2.2.2.1,
    (handlePlayerEnemyCollision_frame sqrt _).2.2.2.1]
  rfl

theorem updateGameLogic_eq (sqrt : K → K) (s : World K) (dt : K) (rx ry rz : Nat) :
    updateGameLogic sqrt s dt rx ry rz =
      if s.timeElapsed + dt > 10 then
        { spawnEnemy { updateEntities sqrt s dt with timeElapsed := s.timeElapsed + dt }
            rx ry rz with timeElapsed := s.timeElapsed + dt - 10 }
      else { updateEntities sqrt s dt with timeElapsed := s.timeElapsed + dt } := by
  have ht := updateEntities_timeElapsed sqrt s dt
  have hspawn : ∀ w : World K, (spawnEnemy w rx ry rz).timeElapsed = w.timeElapsed := by
    intro w
    unfold spawnEnemy
    split <;> rfl
  have hunfold : updateGameLogic sqrt s dt rx ry rz =
      if (updateEntities sqrt s dt).timeElapsed + dt > 10 then
        { spawnEnemy { updateEntities sqrt s dt with
              timeElapsed := (updateEntities sqrt s dt).timeElapsed + dt } rx ry rz with
          timeElapsed := (spawnEnemy { updateEntities sqrt s dt with
              timeElapsed := (updateEntities sqrt s dt).timeElapsed + dt } rx ry rz).timeElapsed
                - 10 }
      else { updateEntities sqrt s dt with
              timeElapsed := (updateEntities sqrt s dt).timeElapsed + dt } := rfl
  rw [hunfold, hspawn, ht]


theorem updateEntities_bullets (sqrt : K → K) (s : World K) (dt : K) :
    (updateEntities sqrt s dt).player.bullets =
      (handleBulletEnemyCollision sqrt
        (handlePlayerEnemyCollision sqrt (movedWorld s dt))).player.bullets.filter
          (fun b => b.active) := by
  unfold updateEntities
  dsimp only
  rw [eraseInactiveLoop_eq_filter]

theorem updateEntities_enemies (sqrt : K → K) (s : World K) (dt : K) :
    (updateEntities sqrt s dt).enemies =
      (handleBulletEnemyCollision sqrt
        (handlePlayerEnemyCollision sqrt (movedWorld s dt))).enemies.filter
          (fun e => e.alive) := by
  unfold updateEntities
  dsimp only
  rw [eraseDeadLoop_eq_filter]

theorem movedWorld_bullets (s : World K) (dt : K) :
    (movedWorld s dt).player.bullets = s.player.bullets.map (movedBullet dt) := by
  unfold movedWorld
  dsimp only
  rw [updateBulletsLoop_eq_map]

theorem movedWorld_enemies (s : World K) (dt : K) :
    (movedWorld s dt).enemies = s.enemies.map (movedEnemy dt) := by
  unfold movedWorld
  dsimp only
  rw [updateEnemiesLoop_eq_map]

theorem updateEntities_lengths (sqrt : K → K) (s : World K) (dt : K) :
    (updateEntities sqrt s dt).player.bullets.length ≤ s.player.bullets.length ∧
    (updateEntities sqrt s dt).enemies.length ≤ s.enemies.length := by
  constructor
  · rw [updateEntities_bullets]
    refine le_trans (List.length_filter_le _ _) ?_
    rw [(handleBulletEnemyCollision_frame sqrt _).2.2.2.2.1,
      (handlePlayerEnemyCollision_frame sqrt _).2.1, movedWorld_bullets, List.length_map]
  · rw [updateEntities_enemies]
    refine le_trans (List.length_filter_le _ _) ?_
    rw [(handleBulletEnemyCollision_frame sqrt _).2.2.2.2.2,
      (handlePlayerEnemyCollision_frame sqrt _).2.2.2.2, movedWorld_enemies, List.length_map]

theorem spawnEnemy_frame (s : World K) (rx ry rz : Nat) :
    (spawnEnemy s rx ry rz).player = s.player ∧
    (spawnEnemy s rx ry rz).timeElapsed = s.timeElapsed := by
  unfold spawnEnemy
  split <;> exact ⟨rfl, rfl⟩

theorem spawnEnemy_length_le (s : World K) (rx ry rz : Nat) (h : s.enemies.length ≤ 10) :
    (spawnEnemy s rx ry rz).enemies.length ≤ 10 := by
  unfold spawnEnemy
  split
  · rename_i hlt
    simp only [MAX_ENEMIES] at hlt
    simp only [List.length_append, List.length_singleton]
    omega
  · exact h

theorem updateGameLogic_player (sqrt : K → K) (s : World K) (dt : K) (rx ry rz : Nat) :
    (updateGameLogic sqrt s dt rx ry rz).player = (updateEntities sqrt s dt).player := by
  rw [updateGameLogic_eq]
  split
  · exact (spawnEnemy_frame _ rx ry rz).1
  · rfl

theorem updateGameLogic_lengths (sqrt : K → K) (s : World K) (dt : K) (rx ry rz : Nat)
    (hb : s.player.bullets.length ≤ 100) (he : s.enemies.length ≤ 10) :
    (updateGameLogic sqrt s dt rx ry rz).player.bullets.length ≤ 100 ∧
    (updateGameLogic sqrt s dt rx ry rz).enemies.length ≤ 10 := by
  have hlen := updateEntities_lengths sqrt s dt
  constructor
  · rw [updateGameLogic_player]
    exact le_trans hlen.1 hb
  · rw [updateGameLogic_eq]
    split
    · exact spawnEnemy_length_le _ rx ry rz (le_trans hlen.2 he)
    · exact le_trans hlen.2 he

theorem shootBullet_length_le (s : World K) (hb : s.player.bullets.length ≤ 100) :
    (shootBullet s).player.bullets.length ≤ 100 := by
  rw [shootBullet_bullets_cap s hb]
  simp only [List.length_drop, List.length_append, List.length_singleton]
  omega

/-- C11: in every state reachable from the initial state by fire commands, ticks (any `dt`,
any values of `rand()`) and restarts, the bullet list has at most 100 elements and the enemy
list has at most 10. -/
theorem reachable_caps (sqrt : K → K) (s : World K) (h : Reachable sqrt s) :
    s.player.bullets.length ≤ 100 ∧ s.enemies.length ≤ 10 := by
  induction h with
  | init => exact ⟨Nat.zero_le _, Nat.zero_le _⟩
  | fire s _ ih => exact ⟨shootBullet_length_le s ih.1, ih.2⟩
  | tick s dt rx ry rz _ ih => exact updateGameLogic_lengths sqrt s dt rx ry rz ih.1 ih.2
  | restart s _ _ => exact ⟨Nat.zero_le _, Nat.zero_le _⟩

/-- A fire command and a tick of 0.1 from the initial state, over the reals. -/
theorem reachable_caps_witness :
    Reachable Real.sqrt (updateGameLogic Real.sqrt (shootBullet initialWorld) 0.1 1 2 3) ∧
    (updateGameLogic Real.sqrt (shootBullet initialWorld) 0.1 1 2 3).player.bullets.length ≤ 100 ∧
    (updateGameLogic Real.sqrt (shootBullet initialWorld) 0.1 1 2 3).enemies.length ≤ 10 :=
  have hr : Reachable Real.sqrt (updateGameLogic Real.sqrt (shootBullet initialWorld) 0.1 1 2 3) :=
    Reachable.tick _ _ _ _ _ (Reachable.fire _ Reachable.init)
  ⟨hr, reachable_caps Real.sqrt _ hr⟩


/-! ### Normalising a vector -/

theorem Vector3.length_real_eq_zero_iff (v : Vector3 ℝ) :
    v.length Real.sqrt = 0 ↔ v = ⟨0, 0, 0⟩ := by
  obtain ⟨x, y, z⟩ := v
  have hnn : 0 ≤ x * x + y * y + z * z :=
    add_nonneg (add_nonneg (mul_self_nonneg x) (mul_self_nonneg y)) (mul_self_nonneg z)
  simp only [Vector3.length, Vector3.dot, Real.sqrt_eq_zero hnn, Vector3.mk.injEq]
  constructor
  · intro h
    refine ⟨?_, ?_, ?_⟩ <;> nlinarith [mul_self_nonneg x, mul_self_nonneg y, mul_self_nonneg z]
  · rintro ⟨rfl, rfl, rfl⟩
    ring

/-- C13: over the reals, `normalize` leaves `v` unchanged when `length v` is 0, which is the
case exactly for the zero vector; otherwise it replaces `v` by `v` scaled by
`1 / length v`, and the result has length exactly 1. -/
theorem normalize_spec (v : Vector3 ℝ) :
    (v.length Real.sqrt = 0 ↔ v = ⟨0, 0, 0⟩) ∧
    (v.length Real.sqrt = 0 → v.normalize Real.sqrt = v) ∧
    (v.length Real.sqrt ≠ 0 →
      v.normalize Real.sqrt = v.smul (1 / v.length Real.sqrt) ∧
      (v.normalize Real.sqrt).length Real.sqrt = 1) := by
  refine ⟨Vector3.length_real_eq_zero_iff v, ?_, ?_⟩
  · intro h
    simp [Vector3.normalize, h]
  · intro h
    have hnn : 0 ≤ v.length Real.sqrt := Real.sqrt_nonneg _
    have hpos : 0 < v.length Real.sqrt := lt_of_le_of_ne hnn (Ne.symm h)
    have hnorm : v.normalize Real.sqrt = v.smul (1 / v.length Real.sqrt) := by
      simp only [Vector3.normalize, gt_iff_lt, hpos, if_true, Vector3.smul, Vector3.mk.injEq]
      refine ⟨?_, ?_, ?_⟩ <;> ring
    refine ⟨hnorm, ?_⟩
    rw [hnorm]
    have hdot : 0 ≤ v.dot v :=
      add_nonneg (add_nonneg (mul_self_nonneg v.x) (mul_self_nonneg v.y)) (mul_self_nonneg v.z)
    have hsq : v.length Real.sqrt * v.length Real.sqrt = v.dot v := by
      simp only [Vector3.length]
      exact Real.mul_self_sqrt hdot
    have hone : (v.smul (1 / v.length Real.sqrt)).dot (v.smul (1 / v.length Real.sqrt)) = 1 := by
      have : (v.smul (1 / v.length Real.sqrt)).dot (v.smul (1 / v.length Real.sqrt))
          = v.dot v / (v.length Real.sqrt * v.length Real.sqrt) := by
        simp only [Vector3.smul, Vector3.dot]
        field_simp
      have hdpos : 0 < v.dot v := by
        rw [← hsq]
        exact mul_pos hpos hpos
      rw [this, hsq]
      exact div_self (ne_of_gt hdpos)
    show Real.sqrt ((v.smul (1 / v.length Real.sqrt)).dot (v.smul (1 / v.length Real.sqrt))) = 1
    rw [hone, Real.sqrt_one]


/-! ### The spawn timer -/

theorem updateGameLogic_timeElapsed (sqrt : K → K) (s : World K) (dt : K) (rx ry rz : Nat) :
    (updateGameLogic sqrt s dt rx ry rz).timeElapsed
      = if s.timeElapsed + dt > 10 then s.timeElapsed + dt - 10 else s.timeElapsed + dt := by
  rw [updateGameLogic_eq]
  split <;> rfl

theorem mainLoop_append (sqrt : K → K) (inputs : List Input) :
    ∀ (s : World K) (inp : Input),
      mainLoop sqrt s (inputs ++ [inp]) = mainIteration sqrt (mainLoop sqrt s inputs) inp := by
  induction inputs with
  | nil => intro s inp; rfl
  | cons a inputs ih =>
    intro s inp
    simp only [List.cons_append, mainLoop]
    exact ih _ inp

theorem mainIteration_no_restart (sqrt : K → K) (s : World K) (inp : Input)
    (h : inp.restart = false) :
    mainIteration sqrt s inp
      = updateGameLogic sqrt (if inp.fire then shootBullet s else s) 0.1 inp.rx inp.ry inp.rz := by
  unfold mainIteration
  simp [h]

theorem mainIteration_timeElapsed (sqrt : K → K) (s : World K) (inp : Input)
    (h : inp.restart = false) :
    (mainIteration sqrt s inp).timeElapsed
      = if s.timeElapsed + 0.1 > 10 then s.timeElapsed + 0.1 - 10 else s.timeElapsed + 0.1 := by
  rw [mainIteration_no_restart sqrt s inp h, updateGameLogic_timeElapsed]
  have ht : (if inp.fire then shootBullet s else s).timeElapsed = s.timeElapsed := by
    split <;> rfl
  rw [ht]

theorem mainLoop_timeElapsed (sqrt : K → K) (s : World K) (hs : s.timeElapsed = 0)
    (inputs : List Input) (hno : ∀ inp ∈ inputs, inp.restart = false) :
    (mainLoop sqrt s inputs).timeElapsed
      = if inputs.length = 0 then 0 else (((inputs.length - 1) % 100 + 1 : Nat) : K) / 10 := by
  induction inputs using List.reverseRecOn with
  | nil => simpa [mainLoop] using hs
  | append_singleton inputs inp ih =>
    have hprev := ih (fun a ha => hno a (List.mem_append_left _ ha))
    have hinp : inp.restart = false := hno inp (by simp)
    rw [mainLoop_append, mainIteration_timeElapsed sqrt _ inp hinp, hprev]
    have h01 : (0.1 : K) = 1 / 10 := by norm_num
    rw [h01]
    simp only [List.length_append, List.length_singleton, Nat.add_sub_cancel,
      Nat.add_one_ne_zero, if_false]
    rcases Nat.eq_zero_or_pos inputs.length with h0 | hpos
    · simp only [h0, if_true, Nat.zero_mod]
      norm_num
    · have hne : inputs.length ≠ 0 := by omega
      simp only [hne, if_false]
      have hlt : (inputs.length - 1) % 100 < 100 := Nat.mod_lt _ (by decide)
      by_cases hwrap : (inputs.length - 1) % 100 = 99
      · have hmod : inputs.length % 100 = 0 := by omega
        rw [hwrap, hmod]
        norm_num
      · have hmod : inputs.length % 100 = (inputs.length - 1) % 100 + 1 := by omega
        have hle : (((inputs.length - 1) % 100 + 1 : Nat) : K) ≤ 99 := by
          have : (inputs.length - 1) % 100 + 1 ≤ 99 := by omega
          exact_mod_cast this
        rw [hmod, if_neg (by
          rw [gt_iff_lt, not_lt]
          linarith)]
        push_cast
        ring


/-- C14: a tick with step `dt` from accumulator value `t` runs `spawnEnemy` exactly when
`t + dt > 10`, and leaves the accumulator at `t + dt - 10` then and at `t + dt` otherwise,
whether or not the cap lets `spawnEnemy` add an enemy. In the loop of `main` (`dt = 0.1`,
exact arithmetic) started with accumulator 0 and not restarted, the accumulator after `n`
iterations is `((n - 1) mod 100 + 1) / 10`, so the tick of iteration `n + 1` runs
`spawnEnemy` exactly when `n + 1` is one of 101, 201, 301, ... -/
theorem spawn_timer (sqrt : K → K) (s : World K) (dt : K) (rx ry rz : Nat) :
    (updateGameLogic sqrt s dt rx ry rz).timeElapsed
      = (if s.timeElapsed + dt > 10 then s.timeElapsed + dt - 10 else s.timeElapsed + dt) ∧
    (s.timeElapsed + dt > 10 →
      updateGameLogic sqrt s dt rx ry rz =
        { spawnEnemy { updateEntities sqrt s dt with timeElapsed := s.timeElapsed + dt }
            rx ry rz with timeElapsed := s.timeElapsed + dt - 10 }) ∧
    (¬ s.timeElapsed + dt > 10 →
      updateGameLogic sqrt s dt rx ry rz =
        { updateEntities sqrt s dt with timeElapsed := s.timeElapsed + dt }) ∧
    (∀ (start : World K) (inputs : List Input), start.timeElapsed = 0 →
      (∀ inp ∈ inputs, inp.restart = false) →
      (mainLoop sqrt start inputs).timeElapsed
        = (if inputs.length = 0 then 0
           else (((inputs.length - 1) % 100 + 1 : Nat) : K) / 10) ∧
      ((mainLoop sqrt start inputs).timeElapsed + 0.1 > 10 ↔
        ∃ k : Nat, 0 < k ∧ inputs.length + 1 = 100 * k + 1)) := by
  refine ⟨updateGameLogic_timeElapsed sqrt s dt rx ry rz, ?_, ?_, ?_⟩
  · intro h
    rw [updateGameLogic_eq, if_pos h]
  · intro h
    rw [updateGameLogic_eq, if_neg h]
  · intro start inputs hstart hno
    have ht := mainLoop_timeElapsed sqrt start hstart inputs hno
    refine ⟨ht, ?_⟩
    rw [ht]
    have h01 : (0.1 : K) = 1 / 10 := by norm_num
    rw [h01]
    rcases Nat.eq_zero_or_pos inputs.length with h0 | hpos
    · simp only [h0, if_true]
      constructor
      · intro h
        norm_num at h
      · rintro ⟨k, hk, hkk⟩
        omega
    · have hne : inputs.length ≠ 0 := by omega
      simp only [hne, if_false]
      have hlt : (inputs.length - 1) % 100 < 100 := Nat.mod_lt _ (by decide)
      constructor
      · intro h
        have hge : (100 : K) < (((inputs.length - 1) % 100 + 1 : Nat) : K) + 1 := by linarith
        have hge' : 100 < (inputs.length - 1) % 100 + 1 + 1 := by exact_mod_cast hge
        refine ⟨inputs.length / 100, ?_, ?_⟩ <;> omega
      · rintro ⟨k, hk, hkk⟩
        have hmod : (inputs.length - 1) % 100 + 1 = 100 := by omega
        rw [hmod]
        norm_num

/-- Over the rationals: after 100 iterations the accumulator stands at 10 and the 101st tick
passes the test, after 99 iterations the 100th does not. -/
theorem spawn_timer_witness :
    (mainLoop (fun x : ℚ => x) initialWorld
        (List.replicate 100 ⟨false, 0, 0, 0, false⟩)).timeElapsed + 0.1 > 10 ∧
    ¬ (mainLoop (fun x : ℚ => x) initialWorld
        (List.replicate 99 ⟨false, 0, 0, 0, false⟩)).timeElapsed + 0.1 > 10 := by
  have h := fun n => (spawn_timer (fun x : ℚ => x) initialWorld 0 0 0 0).2.2.2 initialWorld
    (List.replicate n ⟨false, 0, 0, 0, false⟩) rfl
    (fun inp hinp => by rw [List.eq_of_mem_replicate hinp])
  constructor
  · rw [(h 100).2]
    exact ⟨1, by decide, by simp⟩
  · rw [(h 99).2]
    rintro ⟨k, hk, hkk⟩
    simp only [List.length_replicate] at hkk
    omega


/-! ### What survives a tick -/

theorem updateEntities_enemies_forall (sqrt : K → K) (s : World K) (dt : K)
    (Pe : Enemy K → Prop)
    (hdead : ∀ (e : Enemy K) (h : K), Pe e → Pe { e with health := h, alive := false })
    (hlive : ∀ (e : Enemy K) (h : K), Pe e → 0 < h → Pe { e with health := h })
    (hall : ∀ e ∈ s.enemies, Pe (movedEnemy dt e)) :
    ∀ e ∈ (updateEntities sqrt s dt).enemies, Pe e ∧ e.alive = true := by
  intro e he
  rw [updateEntities_enemies, List.mem_filter] at he
  refine ⟨?_, he.2⟩
  refine handleBulletEnemyCollision_enemies_forall sqrt Pe hdead hlive _ ?_ e he.1
  refine handlePlayerEnemyCollision_enemies_forall sqrt Pe hdead _ ?_
  intro e1 he1
  rw [movedWorld_enemies, List.mem_map] at he1
  obtain ⟨e0, he0, rfl⟩ := he1
  exact hall e0 he0

theorem updateEntities_bullets_forall (sqrt : K → K) (s : World K) (dt : K)
    (Pb : Bullet K → Prop)
    (hoff : ∀ b : Bullet K, Pb b → Pb { b with active := false })
    (hall : ∀ b ∈ s.player.bullets, Pb (movedBullet dt b)) :
    ∀ b ∈ (updateEntities sqrt s dt).player.bullets, Pb b ∧ b.active = true := by
  intro b hb
  rw [updateEntities_bullets, List.mem_filter] at hb
  refine ⟨?_, hb.2⟩
  refine handleBulletEnemyCollision_bullets_forall sqrt Pb hoff _ ?_ b hb.1
  intro b1 hb1
  rw [(handlePlayerEnemyCollision_frame sqrt _).2.1, movedWorld_bullets, List.mem_map] at hb1
  obtain ⟨b0, hb0, rfl⟩ := hb1
  exact hall b0 hb0

theorem spawnEnemy_mem (s : World K) (rx ry rz : Nat) (e : Enemy K)
    (he : e ∈ (spawnEnemy s rx ry rz).enemies) :
    e ∈ s.enemies ∨ e = spawnedEnemy rx ry rz := by
  unfold spawnEnemy at he
  split at he
  · simp only [List.mem_append, List.mem_singleton] at he
    rcases he with h | h
    · exact Or.inl h
    · right
      rw [h]
      simp [spawnedEnemy, Enemy.mk0, Vector3.zero, WORLD_SIZE_INT, WORLD_SIZE_X, WORLD_SIZE_Y,
        WORLD_SIZE_Z]
      norm_num
  · exact Or.inl he

theorem updateGameLogic_enemies_mem (sqrt : K → K) (s : World K) (dt : K) (rx ry rz : Nat)
    (e : Enemy K) (he : e ∈ (updateGameLogic sqrt s dt rx ry rz).enemies) :
    e ∈ (updateEntities sqrt s dt).enemies ∨ e = spawnedEnemy rx ry rz := by
  rw [updateGameLogic_eq] at he
  split at he
  · exact spawnEnemy_mem { updateEntities sqrt s dt with timeElapsed := s.timeElapsed + dt }
      rx ry rz e he
  · exact Or.inl he

theorem spawnedEnemy_coordinate (r : Nat) :
    (-50 : K) ≤ ((r % 100 : Nat) : K) - 50 ∧ ((r % 100 : Nat) : K) - 50 ≤ 49 := by
  have hlt : r % 100 < 100 := Nat.mod_lt _ (by decide)
  have h1 : ((r % 100 : Nat) : K) ≤ 99 := by
    have : r % 100 ≤ 99 := by omega
    exact_mod_cast this
  have h0 : (0 : K) ≤ ((r % 100 : Nat) : K) := Nat.cast_nonneg _
  constructor <;> linarith

theorem checkOutOfBound_eq_true_iff (o : Object K) :
    checkOutOfBound o = true ↔
      (o.position.x < -50 ∨ 50 < o.position.x) ∨ (o.position.y < -50 ∨ 50 < o.position.y) ∨
        (o.position.z < -50 ∨ 50 < o.position.z) := by
  have h50 : (100 : K) / 2 = 50 := by norm_num
  have hn50 : -(100 : K) / 2 = -50 := by norm_num
  simp only [checkOutOfBound, WORLD_SIZE_X, WORLD_SIZE_Y, WORLD_SIZE_Z, h50, hn50,
    Bool.or_eq_true, decide_eq_true_eq, gt_iff_lt]
  tauto

theorem spawnedEnemy_inBounds (rx ry rz : Nat) :
    checkOutOfBound (spawnedEnemy rx ry rz : Enemy K).toObject = false := by
  have hx : (-50 : K) ≤ ((rx % 100 : Nat) : K) - 50 ∧ ((rx % 100 : Nat) : K) - 50 ≤ 49 :=
    spawnedEnemy_coordinate rx
  have hy : (-50 : K) ≤ ((ry % 100 : Nat) : K) - 50 ∧ ((ry % 100 : Nat) : K) - 50 ≤ 49 :=
    spawnedEnemy_coordinate ry
  have hz : (-50 : K) ≤ ((rz % 100 : Nat) : K) - 50 ∧ ((rz % 100 : Nat) : K) - 50 ≤ 49 :=
    spawnedEnemy_coordinate rz
  rw [← Bool.not_eq_true, checkOutOfBound_eq_true_iff]
  simp only [spawnedEnemy]
  rintro ((h | h) | (h | h) | (h | h)) <;> linarith [hx.1, hx.2, hy.1, hy.2, hz.1, hz.2]


theorem movedEnemy_alive_health (dt : K) (e : Enemy K) (h : e.alive = true → 0 < e.health) :
    (movedEnemy dt e).alive = true → 0 < (movedEnemy dt e).health := by
  unfold movedEnemy
  split
  · intro hf
    exact absurd hf Bool.false_ne_true
  · exact h

theorem updateGameLogic_enemies_alive (sqrt : K → K) (s : World K) (dt : K) (rx ry rz : Nat)
    (hall : ∀ e ∈ s.enemies, e.alive = true → 0 < e.health) :
    ∀ e ∈ (updateGameLogic sqrt s dt rx ry rz).enemies, e.alive = true ∧ 0 < e.health := by
  intro e he
  rcases updateGameLogic_enemies_mem sqrt s dt rx ry rz e he with h | h
  · have hp := updateEntities_enemies_forall sqrt s dt
      (fun e => e.alive = true → 0 < e.health)
      (fun e h _ hf => absurd hf Bool.false_ne_true)
      (fun e h _ hpos _ => hpos)
      (fun e0 he0 => movedEnemy_alive_health dt e0 (hall e0 he0)) e h
    exact ⟨hp.2, hp.1 hp.2⟩
  · rw [h]
    exact ⟨rfl, by simp only [spawnedEnemy]; norm_num⟩

theorem Reachable.enemies_alive (sqrt : K → K) (s : World K) (h : Reachable sqrt s) :
    ∀ e ∈ s.enemies, e.alive = true ∧ 0 < e.health := by
  induction h with
  | init => intro e he; exact absurd he (List.not_mem_nil e)
  | fire s _ ih => exact ih
  | tick s dt rx ry rz _ ih =>
    exact updateGameLogic_enemies_alive sqrt s dt rx ry rz (fun e he _ => (ih e he).2)
  | restart s _ _ => intro e he; exact absurd he (List.not_mem_nil e)

/-- C15: in every state reachable from the initial state by fire commands, ticks and
restarts every enemy in the list has `alive = true` and `health > 0`, and so has every enemy
in the list at the end of a tick made from such a state: no enemy with `health ≤ 0` or
`alive = false` survives the compaction, although it tests the flag only. -/
theorem reachable_enemies_alive (sqrt : K → K) (s : World K) (h : Reachable sqrt s) :
    (∀ e ∈ s.enemies, e.alive = true ∧ 0 < e.health) ∧
    (∀ (dt : K) (rx ry rz : Nat), ∀ e ∈ (updateGameLogic sqrt s dt rx ry rz).enemies,
      e.alive = true ∧ 0 < e.health) :=
  ⟨Reachable.enemies_alive sqrt s h,
    fun dt rx ry rz =>
      Reachable.enemies_alive sqrt _ (Reachable.tick s dt rx ry rz h)⟩

/-- C16: the enemy `spawnEnemy` appends has each coordinate `rand() mod 100 - 50`, an
integer from -50 to 49, so it is inside the world box; every integer from -50 to 49 is the
coordinate for some value of `rand()`, and no coordinate exceeds 49. -/
theorem spawnEnemy_position (s : World K) (rx ry rz : Nat) :
    (s.enemies.length < 10 →
      spawnEnemy s rx ry rz = { s with enemies := s.enemies ++ [spawnedEnemy rx ry rz] }) ∧
    (spawnedEnemy rx ry rz : Enemy K).position
      = ⟨((rx % 100 : Nat) : K) - 50, ((ry % 100 : Nat) : K) - 50,
         ((rz % 100 : Nat) : K) - 50⟩ ∧
    (∀ r : Nat, ∃ n : Int, -50 ≤ n ∧ n ≤ 49 ∧ ((r % 100 : Nat) : K) - 50 = (n : K)) ∧
    checkOutOfBound (spawnedEnemy rx ry rz : Enemy K).toObject = false ∧
    (∀ n : Int, -50 ≤ n → n ≤ 49 → ∃ r : Nat, ((r % 100 : Nat) : K) - 50 = (n : K)) ∧
    (∀ r : Nat, ((r % 100 : Nat) : K) - 50 ≤ 49) := by
  refine ⟨?_, rfl, ?_, spawnedEnemy_inBounds rx ry rz, ?_, ?_⟩
  · intro h
    have h50 : (100 : K) / 2 = 50 := by norm_num
    rw [spawnEnemy, if_pos (by simp only [MAX_ENEMIES]; omega)]
    simp only [spawnedEnemy, Enemy.mk0, Vector3.zero, WORLD_SIZE_INT, WORLD_SIZE_X,
      WORLD_SIZE_Y, WORLD_SIZE_Z, h50]
  · intro r
    have hlt : r % 100 < 100 := Nat.mod_lt _ (by decide)
    refine ⟨((r % 100 : Nat) : Int) - 50, by omega, by omega, ?_⟩
    simp only [Int.cast_sub, Int.cast_natCast, Int.cast_ofNat]
  · intro n h1 h2
    refine ⟨(n + 50).toNat, ?_⟩
    have hmod : (n + 50).toNat % 100 = (n + 50).toNat := Nat.mod_eq_of_lt (by omega)
    have hcast : (((n + 50).toNat : Nat) : Int) = n + 50 := Int.toNat_of_nonneg (by omega)
    rw [hmod]
    have hK : (((n + 50).toNat : Nat) : K) = ((n + 50 : Int) : K) :=
      calc (((n + 50).toNat : Nat) : K) = ((((n + 50).toNat : Nat) : Int) : K) :=
            (Int.cast_natCast _).symm
        _ = ((n + 50 : Int) : K) := by rw [hcast]
    rw [hK]
    push_cast
    ring
  · intro r
    exact (spawnedEnemy_coordinate r).2

theorem movedBullet_inBounds (dt : K) (b : Bullet K) :
    (movedBullet dt b).active = true → checkOutOfBound (movedBullet dt b).toObject = false := by
  unfold movedBullet
  split
  · intro hf
    exact absurd hf Bool.false_ne_true
  · rename_i hin
    intro _
    simpa using hin

theorem movedEnemy_inBounds (dt : K) (e : Enemy K) :
    (movedEnemy dt e).alive = true → checkOutOfBound (movedEnemy dt e).toObject = false := by
  unfold movedEnemy
  split
  · intro hf
    exact absurd hf Bool.false_ne_true
  · rename_i hin
    intro _
    simpa using hin

/-- C19: for every starting state, every `dt` and all values of `rand()`, after
`updateGameLogic` every bullet in the list is active and inside the world box, and every
enemy in the list, a freshly spawned one included, is alive and inside the world box. -/
theorem updateGameLogic_survivors (sqrt : K → K) (s : World K) (dt : K) (rx ry rz : Nat) :
    (∀ b ∈ (updateGameLogic sqrt s dt rx ry rz).player.bullets,
      b.active = true ∧ checkOutOfBound b.toObject = false) ∧
    (∀ e ∈ (updateGameLogic sqrt s dt rx ry rz).enemies,
      e.alive = true ∧ checkOutOfBound e.toObject = false) := by
  constructor
  · intro b hb
    rw [updateGameLogic_player] at hb
    have hp := updateEntities_bullets_forall sqrt s dt
      (fun b => b.active = true → checkOutOfBound b.toObject = false)
      (fun b _ hf => absurd hf Bool.false_ne_true)
      (fun b0 _ => movedBullet_inBounds dt b0) b hb
    exact ⟨hp.2, hp.1 hp.2⟩
  · intro e he
    rcases updateGameLogic_enemies_mem sqrt s dt rx ry rz e he with h | h
    · have hp := updateEntities_enemies_forall sqrt s dt
        (fun e => e.alive = true → checkOutOfBound e.toObject = false)
        (fun e h _ hf => absurd hf Bool.false_ne_true)
        (fun e h hpe _ => hpe)
        (fun e0 _ => movedEnemy_inBounds dt e0) e h
      exact ⟨hp.2, hp.1 hp.2⟩
    · rw [h]
      exact ⟨rfl, spawnedEnemy_inBounds rx ry rz⟩


theorem spawnEnemy_of_lt (s : World K) (rx ry rz : Nat) (h : s.enemies.length < 10) :
    spawnEnemy s rx ry rz = { s with enemies := s.enemies ++ [spawnedEnemy rx ry rz] } := by
  have h50 : (100 : K) / 2 = 50 := by norm_num
  rw [spawnEnemy, if_pos (by simp only [MAX_ENEMIES]; omega)]
  simp only [spawnedEnemy, Enemy.mk0, Vector3.zero, WORLD_SIZE_INT, WORLD_SIZE_X,
    WORLD_SIZE_Y, WORLD_SIZE_Z, h50]

theorem updateGameLogic_initial_long_tick (sqrt : K → K) (rx ry rz : Nat) :
    (updateGameLogic sqrt initialWorld 11 rx ry rz).enemies = [spawnedEnemy rx ry rz] := by
  have hnil : (updateEntities sqrt (initialWorld : World K) 11).enemies = [] :=
    List.length_eq_zero.mp (Nat.le_zero.mp (updateEntities_lengths sqrt initialWorld 11).2)
  rw [updateGameLogic_eq, if_pos (by simp only [initialWorld]; norm_num)]
  show (spawnEnemy { updateEntities sqrt (initialWorld : World K) 11 with
      timeElapsed := (initialWorld : World K).timeElapsed + 11 } rx ry rz).enemies = _
  rw [spawnEnemy_of_lt _ rx ry rz (by simp [hnil])]
  simp [hnil]

/-- A first tick of 11 seconds from the initial state spawns an enemy at once; it is alive
with health 100. -/
theorem reachable_enemies_alive_witness :
    Reachable Real.sqrt (updateGameLogic Real.sqrt initialWorld 11 1 2 3) ∧
    (updateGameLogic Real.sqrt initialWorld 11 1 2 3).enemies = [spawnedEnemy 1 2 3] ∧
    (∀ e ∈ (updateGameLogic Real.sqrt initialWorld 11 1 2 3).enemies,
      e.alive = true ∧ 0 < e.health) :=
  have hr : Reachable Real.sqrt (updateGameLogic Real.sqrt initialWorld 11 1 2 3) :=
    Reachable.tick _ _ _ _ _ Reachable.init
  ⟨hr, updateGameLogic_initial_long_tick Real.sqrt 1 2 3,
    (reachable_enemies_alive Real.sqrt _ hr).1⟩

/-! ### The player's `alive` flag -/

theorem playerEnemyHit_health (sqrt : K → K) (s : World K) (i : Nat)
    (hi : i < s.enemies.length) (hall : ∀ e ∈ s.enemies, 0 ≤ e.health) :
    (playerEnemyHit sqrt s i hi).player.alive = s.player.alive ∧
    (playerEnemyHit sqrt s i hi).player.health ≤ s.player.health ∧
    (∀ e ∈ (playerEnemyHit sqrt s i hi).enemies, 0 ≤ e.health) := by
  unfold playerEnemyHit
  split
  · refine ⟨rfl, ?_, ?_⟩
    · have := hall _ (List.get_mem s.enemies i hi)
      simp only
      linarith
    · intro e he
      rcases List.mem_or_eq_of_mem_set he with hmem | heq
      · exact hall e hmem
      · rw [heq]
  · exact ⟨rfl, le_rfl, hall⟩

theorem handlePlayerEnemyCollisionLoop_alive_iff (sqrt : K → K) (n : Nat) :
    ∀ (s : World K) (i : Nat), s.enemies.length - i = n →
      (∀ e ∈ s.enemies, 0 ≤ e.health) →
      (s.player.alive = true ↔ 0 < s.player.health) →
      ((handlePlayerEnemyCollisionLoop sqrt s i).player.alive = true ↔
        0 < (handlePlayerEnemyCollisionLoop sqrt s i).player.health) := by
  induction n with
  | zero =>
    intro s i h _ hiff
    rw [handlePlayerEnemyCollisionLoop_end sqrt s i (by omega)]
    exact hiff
  | succ n ih =>
    intro s i h hall hiff
    have hi : i < s.enemies.length := by omega
    obtain ⟨halive, hhealth, hall1⟩ := playerEnemyHit_health sqrt s i hi hall
    rw [handlePlayerEnemyCollisionLoop, dif_pos hi]
    split
    · rename_i hle
      constructor
      · intro hf
        exact absurd hf Bool.false_ne_true
      · intro hpos
        exact absurd hpos (not_lt.mpr hle)
    · rename_i hgt
      have hpos : 0 < (playerEnemyHit sqrt s i hi).player.health := not_le.mp hgt
      refine ih _ (i + 1) (by rw [playerEnemyHit_length]; omega) hall1 ?_
      constructor
      · intro _
        exact hpos
      · intro _
        rw [halive]
        exact hiff.mpr (lt_of_lt_of_le hpos hhealth)

theorem updateGameLogic_alive_iff (sqrt : K → K) (s : World K) (dt : K) (rx ry rz : Nat)
    (hall : ∀ e ∈ s.enemies, 0 ≤ e.health)
    (hiff : s.player.alive = true ↔ 0 < s.player.health) :
    ((updateGameLogic sqrt s dt rx ry rz).player.alive = true ↔
      0 < (updateGameLogic sqrt s dt rx ry rz).player.health) := by
  have hmoved : ∀ e ∈ (movedWorld s dt).enemies, 0 ≤ e.health := by
    intro e he
    rw [movedWorld_enemies, List.mem_map] at he
    obtain ⟨e0, he0, rfl⟩ := he
    have := hall e0 he0
    unfold movedEnemy
    split <;> exact this
  have hpass := handlePlayerEnemyCollisionLoop_alive_iff sqrt _ (movedWorld s dt) 0 rfl hmoved hiff
  have hplayer : (updateGameLogic sqrt s dt rx ry rz).player.alive
        = (handlePlayerEnemyCollision sqrt (movedWorld s dt)).player.alive ∧
      (updateGameLogic sqrt s dt rx ry rz).player.health
        = (handlePlayerEnemyCollision sqrt (movedWorld s dt)).player.health := by
    rw [updateGameLogic_player]
    unfold updateEntities
    dsimp only
    exact ⟨(handleBulletEnemyCollision_frame sqrt _).2.2.1,
      (handleBulletEnemyCollision_frame sqrt _).2.1⟩
  rw [hplayer.1, hplayer.2]
  exact hpass

/-- C18: in every state reachable from the initial state by fire commands, ticks (any `dt`)
and restarts, `player.alive` is true exactly when `player.health > 0`. -/
theorem reachable_alive_iff_health (sqrt : K → K) (s : World K) (h : Reachable sqrt s) :
    (s.player.alive = true ↔ 0 < s.player.health) := by
  induction h with
  | init =>
    simp only [initialWorld, Player.mk0]
    norm_num
  | fire s _ ih => exact ih
  | tick s dt rx ry rz hs ih =>
    exact updateGameLogic_alive_iff sqrt s dt rx ry rz
      (fun e he => le_of_lt (Reachable.enemies_alive sqrt s hs e he).2) ih
  | restart s _ _ =>
    simp only [restartGame]
    norm_num

/-- After a fire command and a tick of 0.1 from the initial state the flag and the health
agree. -/
theorem reachable_alive_iff_health_witness :
    Reachable Real.sqrt (updateGameLogic Real.sqrt (shootBullet initialWorld) 0.1 4 5 6) ∧
    ((updateGameLogic Real.sqrt (shootBullet initialWorld) 0.1 4 5 6).player.alive = true ↔
      0 < (updateGameLogic Real.sqrt (shootBullet initialWorld) 0.1 4 5 6).player.health) :=
  have hr : Reachable Real.sqrt (updateGameLogic Real.sqrt (shootBullet initialWorld) 0.1 4 5 6) :=
    Reachable.tick _ _ _ _ _ (Reachable.fire _ Reachable.init)
  ⟨hr, reachable_alive_iff_health Real.sqrt _ hr⟩


/-! ### The collision passes do not read the liveness flags -/

omit [LinearOrderedField K] in
theorem enemyData_get (es fs : List (Enemy K)) (h : enemyData es = enemyData fs) (j : Nat)
    (hj : j < es.length) (hj1 : j < fs.length) :
    (es.get ⟨j, hj⟩).toObject = (fs.get ⟨j, hj1⟩).toObject ∧
    (es.get ⟨j, hj⟩).health = (fs.get ⟨j, hj1⟩).health := by
  have hlt : j < (enemyData es).length := by simpa [enemyData] using hj
  have := List.getElem_of_eq h hlt
  simp only [enemyData, List.getElem_map, Prod.mk.injEq] at this
  simpa [List.get_eq_getElem] using this

omit [LinearOrderedField K] in
theorem bulletData_get (bs cs : List (Bullet K)) (h : bulletData bs = bulletData cs) (i : Nat)
    (hi : i < bs.length) (hi1 : i < cs.length) :
    (bs.get ⟨i, hi⟩).toObject = (cs.get ⟨i, hi1⟩).toObject ∧
    (bs.get ⟨i, hi⟩).damage = (cs.get ⟨i, hi1⟩).damage := by
  have hlt : i < (bulletData bs).length := by simpa [bulletData] using hi
  have := List.getElem_of_eq h hlt
  simp only [bulletData, List.getElem_map, Prod.mk.injEq] at this
  simpa [List.get_eq_getElem] using this

omit [LinearOrderedField K] in
theorem enemyData_length (es fs : List (Enemy K)) (h : enemyData es = enemyData fs) :
    es.length = fs.length := by
  have := congrArg List.length h
  simpa [enemyData] using this

omit [LinearOrderedField K] in
theorem bulletData_length (bs cs : List (Bullet K)) (h : bulletData bs = bulletData cs) :
    bs.length = cs.length := by
  have := congrArg List.length h
  simpa [bulletData] using this

theorem playerEnemyHit_sameButFlags (sqrt : K → K) (s t : World K) (i : Nat)
    (hi : i < s.enemies.length) (hi1 : i < t.enemies.length) (h : SameButFlags s t) :
    SameButFlags (playerEnemyHit sqrt s i hi) (playerEnemyHit sqrt t i hi1) := by
  obtain ⟨hobj, hhealth, halive, hscore, htime, hb, he⟩ := h
  obtain ⟨hgo, hgh⟩ := enemyData_get s.enemies t.enemies he i hi hi1
  unfold playerEnemyHit
  rw [hobj, hgo]
  split
  · refine ⟨hobj, ?_, halive, hscore, htime, hb, ?_⟩
    · show s.player.health - _ = t.player.health - _
      rw [hhealth, hgh]
    · show enemyData (s.enemies.set i _) = enemyData (t.enemies.set i _)
      simp only [enemyData, List.map_set]
      rw [show s.enemies.map (fun e => (e.toObject, e.health))
        = t.enemies.map (fun e => (e.toObject, e.health)) from he, hgo]
  · exact ⟨hobj, hhealth, halive, hscore, htime, hb, he⟩

theorem handlePlayerEnemyCollisionLoop_sameButFlags (sqrt : K → K) (n : Nat) :
    ∀ (s t : World K) (i : Nat), s.enemies.length - i = n → SameButFlags s t →
      SameButFlags (handlePlayerEnemyCollisionLoop sqrt s i)
        (handlePlayerEnemyCollisionLoop sqrt t i) := by
  induction n with
  | zero =>
    intro s t i hn h
    have hlen := enemyData_length s.enemies t.enemies h.2.2.2.2.2.2
    rw [handlePlayerEnemyCollisionLoop_end sqrt s i (by omega),
      handlePlayerEnemyCollisionLoop_end sqrt t i (by omega)]
    exact h
  | succ n ih =>
    intro s t i hn h
    have hlen := enemyData_length s.enemies t.enemies h.2.2.2.2.2.2
    have hi : i < s.enemies.length := by omega
    have hi1 : i < t.enemies.length := by omega
    have hhit := playerEnemyHit_sameButFlags sqrt s t i hi hi1 h
    rw [handlePlayerEnemyCollisionLoop, dif_pos hi]
    conv_rhs => rw [handlePlayerEnemyCollisionLoop, dif_pos hi1]
    rw [← hhit.2.1]
    split
    · obtain ⟨hobj, hhealth, -, hscore, htime, hb, he⟩ := hhit
      exact ⟨hobj, hhealth, rfl, hscore, htime, hb, he⟩
    · exact ih _ _ (i + 1) (by rw [playerEnemyHit_length]; omega) hhit


theorem bulletEnemyInner_sameButFlags (sqrt : K → K) (s t : World K) (i : Nat)
    (hi : i < s.player.bullets.length) (hi1 : i < t.player.bullets.length)
    (h : SameButFlags s t) (j : Nat) :
    SameButFlags (bulletEnemyInner sqrt s i hi j) (bulletEnemyInner sqrt t i hi1 j) := by
  have hlen := enemyData_length s.enemies t.enemies h.2.2.2.2.2.2
  induction j using Nat.strongRecMeasure (fun j => s.enemies.length - j) with
  | ind j ih =>
    by_cases hj : j < s.enemies.length
    · have hj1 : j < t.enemies.length := by omega
      obtain ⟨hobj, hhealth, halive, hscore, htime, hb, he⟩ := h
      obtain ⟨hgo, hgh⟩ := enemyData_get s.enemies t.enemies he j hj hj1
      obtain ⟨hbo, hbd⟩ := bulletData_get s.player.bullets t.player.bullets hb i hi hi1
      rw [bulletEnemyInner, dif_pos hj]
      conv_rhs => rw [bulletEnemyInner, dif_pos hj1]
      rw [hbo, hgo]
      split
      · dsimp only
        rw [hgh, hbd]
        have hbs : bulletData (s.player.bullets.set i
              { toObject := (s.player.bullets.get ⟨i, hi⟩).toObject,
                damage := (t.player.bullets.get ⟨i, hi1⟩).damage, active := false })
            = bulletData (t.player.bullets.set i
              { toObject := (t.player.bullets.get ⟨i, hi1⟩).toObject,
                damage := (t.player.bullets.get ⟨i, hi1⟩).damage, active := false }) := by
          simp only [bulletData, List.map_set]
          rw [show s.player.bullets.map (fun b => (b.toObject, b.damage))
            = t.player.bullets.map (fun b => (b.toObject, b.damage)) from hb, hbo]
        have hes : ∀ (a1 a2 : Bool), enemyData (s.enemies.set j
              { toObject := (s.enemies.get ⟨j, hj⟩).toObject,
                health := (t.enemies.get ⟨j, hj1⟩).health - (t.player.bullets.get ⟨i, hi1⟩).damage,
                alive := a1 })
            = enemyData (t.enemies.set j
              { toObject := (t.enemies.get ⟨j, hj1⟩).toObject,
                health := (t.enemies.get ⟨j, hj1⟩).health - (t.player.bullets.get ⟨i, hi1⟩).damage,
                alive := a2 }) := by
          intro a1 a2
          simp only [enemyData, List.map_set]
          rw [show s.enemies.map (fun e => (e.toObject, e.health))
            = t.enemies.map (fun e => (e.toObject, e.health)) from he, hgo]
        split
        · exact ⟨hobj, hhealth, halive, by show s.player.score + 10 = t.player.score + 10; rw [hscore],
            htime, hbs, hes _ _⟩
        · exact ⟨hobj, hhealth, halive, hscore, htime, hbs, hes _ _⟩
      · exact ih (j + 1) (by omega)
    · have hj1 : ¬ j < t.enemies.length := by omega
      rw [bulletEnemyInner, dif_neg hj]
      conv_rhs => rw [bulletEnemyInner, dif_neg hj1]
      exact h

theorem handleBulletEnemyCollisionLoop_sameButFlags (sqrt : K → K) (n : Nat) :
    ∀ (s t : World K) (i : Nat), s.player.bullets.length - i = n → SameButFlags s t →
      SameButFlags (handleBulletEnemyCollisionLoop sqrt s i)
        (handleBulletEnemyCollisionLoop sqrt t i) := by
  induction n with
  | zero =>
    intro s t i hn h
    have hlen := bulletData_length s.player.bullets t.player.bullets h.2.2.2.2.2.1
    rw [handleBulletEnemyCollisionLoop_done sqrt s i (by omega),
      handleBulletEnemyCollisionLoop_done sqrt t i (by omega)]
    exact h
  | succ n ih =>
    intro s t i hn h
    have hlen := bulletData_length s.player.bullets t.player.bullets h.2.2.2.2.2.1
    have hi : i < s.player.bullets.length := by omega
    have hi1 : i < t.player.bullets.length := by omega
    rw [handleBulletEnemyCollisionLoop_step sqrt s i hi,
      handleBulletEnemyCollisionLoop_step sqrt t i hi1]
    exact ih _ _ (i + 1) (by rw [bulletEnemyInner_bullets_length]; omega)
      (bulletEnemyInner_sameButFlags sqrt s t i hi hi1 h 0)


/-- C20: the two collision passes never read the liveness flags. From two states that differ
at most in the `active` flags of the bullets and the `alive` flags of the enemies, each pass
gives states that again differ at most in those flags: the same player health, the same
score and the same enemy healths. In particular a bullet whose `active` flag is already
false still takes its damage off the first enemy it collides with, with 10 points if that
health becomes `≤ 0`, and an enemy whose `alive` flag is already false still takes its health
off a player it collides with. -/
theorem passes_ignore_flags (sqrt : K → K) (s t : World K) (h : SameButFlags s t) :
    SameButFlags (handlePlayerEnemyCollision sqrt s) (handlePlayerEnemyCollision sqrt t) ∧
    SameButFlags (handleBulletEnemyCollision sqrt s) (handleBulletEnemyCollision sqrt t) ∧
    ((handlePlayerEnemyCollision sqrt s).player.health
        = (handlePlayerEnemyCollision sqrt t).player.health ∧
      (handlePlayerEnemyCollision sqrt s).player.score
        = (handlePlayerEnemyCollision sqrt t).player.score ∧
      (handlePlayerEnemyCollision sqrt s).enemies.map (fun e => e.health)
        = (handlePlayerEnemyCollision sqrt t).enemies.map (fun e => e.health)) ∧
    ((handleBulletEnemyCollision sqrt s).player.health
        = (handleBulletEnemyCollision sqrt t).player.health ∧
      (handleBulletEnemyCollision sqrt s).player.score
        = (handleBulletEnemyCollision sqrt t).player.score ∧
      (handleBulletEnemyCollision sqrt s).enemies.map (fun e => e.health)
        = (handleBulletEnemyCollision sqrt t).enemies.map (fun e => e.health)) ∧
    (∀ (i : Nat) (hi : i < s.player.bullets.length) (j : Nat) (hj : j < s.enemies.length),
      (s.player.bullets.get ⟨i, hi⟩).active = false →
      checkCollision sqrt (s.player.bullets.get ⟨i, hi⟩).toObject
        (s.enemies.get ⟨j, hj⟩).toObject = true →
      (∀ (k : Nat) (hk : k < s.enemies.length), k < j →
        checkCollision sqrt (s.player.bullets.get ⟨i, hi⟩).toObject
          (s.enemies.get ⟨k, hk⟩).toObject = false) →
      (bulletEnemyInner sqrt s i hi 0).enemies.map (fun e => e.health)
        = (s.enemies.map (fun e => e.health)).set j
            ((s.enemies.get ⟨j, hj⟩).health - (s.player.bullets.get ⟨i, hi⟩).damage) ∧
      (bulletEnemyInner sqrt s i hi 0).player.score
        = s.player.score +
            (if (s.enemies.get ⟨j, hj⟩).health - (s.player.bullets.get ⟨i, hi⟩).damage ≤ 0
             then 10 else 0)) ∧
    (∀ (i : Nat) (hi : i < s.enemies.length),
      (s.enemies.get ⟨i, hi⟩).alive = false →
      checkCollision sqrt s.player.toObject (s.enemies.get ⟨i, hi⟩).toObject = true →
      (playerEnemyHit sqrt s i hi).player.health
        = s.player.health - (s.enemies.get ⟨i, hi⟩).health) := by
  have hp := handlePlayerEnemyCollisionLoop_sameButFlags sqrt _ s t 0 rfl h
  have hb := handleBulletEnemyCollisionLoop_sameButFlags sqrt _ s t 0 rfl h
  have hmap : ∀ es fs : List (Enemy K), enemyData es = enemyData fs →
      es.map (fun e => e.health) = fs.map (fun e => e.health) := by
    intro es fs hd
    have := congrArg (List.map Prod.snd) hd
    simpa [enemyData, List.map_map, Function.comp_def] using this
  refine ⟨hp, hb, ⟨hp.2.1, hp.2.2.2.1, hmap _ _ hp.2.2.2.2.2.2⟩,
    ⟨hb.2.1, hb.2.2.2.1, hmap _ _ hb.2.2.2.2.2.2⟩, ?_, ?_⟩
  · intro i hi j hj _ hcol hfirst
    rw [bulletEnemyInner_hit sqrt s i hi j hj hcol 0 (Nat.zero_le j)
      (fun k hk _ hlt => hfirst k hk hlt)]
    exact ⟨by simp only [List.map_set], rfl⟩
  · intro i hi _ hcol
    unfold playerEnemyHit
    rw [if_pos hcol]


omit [LinearOrderedField K] in
theorem allFlagsSet_sameButFlags (s : World K) : SameButFlags s (allFlagsSet s) := by
  refine ⟨rfl, rfl, rfl, rfl, rfl, ?_, ?_⟩
  · simp [allFlagsSet, bulletData, List.map_map, Function.comp_def]
  · simp [allFlagsSet, enemyData, List.map_map, Function.comp_def]

theorem boundaryDuel_moved : movedWorld (boundaryDuel : World K) 0.1 = boundaryDuelMoved := by
  have hb : checkOutOfBound ((Bullet.mk0 (⟨50.5, 0, 0⟩ : Vector3 K) Vector3.zero).toObject.update 0.1)
      = true := by
    rw [checkOutOfBound_eq_true_iff]
    norm_num [Object.update, Bullet.mk0, Vector3.add, Vector3.smul, Vector3.zero]
  have he1 : checkOutOfBound ((Enemy.mk0 (⟨50, 0, 0⟩ : Vector3 K)).toObject.update 0.1)
      = false := by
    rw [← Bool.not_eq_true, checkOutOfBound_eq_true_iff]
    norm_num [Object.update, Enemy.mk0, Vector3.add, Vector3.smul, Vector3.zero]
  have he2 : checkOutOfBound ((Enemy.mk0 (⟨0, 60.5, 0⟩ : Vector3 K)).toObject.update 0.1)
      = true := by
    rw [checkOutOfBound_eq_true_iff]
    norm_num [Object.update, Enemy.mk0, Vector3.add, Vector3.smul, Vector3.zero]
  have hbs : (movedWorld (boundaryDuel : World K) 0.1).player.bullets = _ :=
    movedWorld_bullets boundaryDuel 0.1
  have hes : (movedWorld (boundaryDuel : World K) 0.1).enemies = _ :=
    movedWorld_enemies boundaryDuel 0.1
  have hsplit : ∀ w : World K, w = ⟨⟨w.player.toObject, w.player.health, w.player.alive,
      w.player.bullets, w.player.score⟩, w.enemies, w.timeElapsed⟩ := fun w => rfl
  rw [hsplit (movedWorld boundaryDuel 0.1), hbs, hes]
  simp [movedWorld, boundaryDuel, boundaryDuelMoved, movedBullet, movedEnemy, Player.mk0,
    Bullet.mk0, Enemy.mk0]
  exact ⟨hb, he1, he2⟩

theorem boundaryDuel_playerPass :
    handlePlayerEnemyCollision Real.sqrt (boundaryDuelMoved : World ℝ) = boundaryDuelStruck := by
  have hc1 : checkCollision Real.sqrt ((Player.mk0 (⟨0, 60, 0⟩ : Vector3 ℝ)).toObject.update 0.1)
      ((Enemy.mk0 (⟨50, 0, 0⟩ : Vector3 ℝ)).toObject.update 0.1) = false := by
    rw [← Bool.not_eq_true, checkCollision_real_iff]
    norm_num [Object.update, Player.mk0, Enemy.mk0, Vector3.add, Vector3.smul, Vector3.sub,
      Vector3.dot, Vector3.zero]
  have hc2 : checkCollision Real.sqrt ((Player.mk0 (⟨0, 60, 0⟩ : Vector3 ℝ)).toObject.update 0.1)
      ((Enemy.mk0 (⟨0, 60.5, 0⟩ : Vector3 ℝ)).toObject.update 0.1) = true := by
    rw [checkCollision_real_iff]
    norm_num [Object.update, Player.mk0, Enemy.mk0, Vector3.add, Vector3.smul, Vector3.sub,
      Vector3.dot, Vector3.zero]
  have hall := handlePlayerEnemyCollisionLoop_all Real.sqrt (boundaryDuelMoved : World ℝ).enemies
    [] boundaryDuelMoved rfl (by
      intro m hm
      have hm2 : m < 2 := hm
      interval_cases m
      · simp [boundaryDuelMoved, healthAfter, List.filter, hc1]
      · simp [boundaryDuelMoved, healthAfter, List.filter, hc1, hc2]
        norm_num)
  refine hall.trans ?_
  simp [boundaryDuelMoved, boundaryDuelStruck, healthAfter, struckEnemy, List.filter, hc1, hc2]
  norm_num

theorem boundaryDuel_bulletPass :
    handleBulletEnemyCollision Real.sqrt (boundaryDuelStruck : World ℝ) = boundaryDuelShot := by
  have hc : checkCollision Real.sqrt
      ((Bullet.mk0 (⟨50.5, 0, 0⟩ : Vector3 ℝ) Vector3.zero).toObject.update 0.1)
      ((Enemy.mk0 (⟨50, 0, 0⟩ : Vector3 ℝ)).toObject.update 0.1) = true := by
    rw [checkCollision_real_iff]
    norm_num [Object.update, Bullet.mk0, Enemy.mk0, Vector3.add, Vector3.smul, Vector3.sub,
      Vector3.dot, Vector3.zero]
  rw [handleBulletEnemyCollision,
    handleBulletEnemyCollisionLoop_step Real.sqrt boundaryDuelStruck 0 (Nat.zero_lt_succ 0),
    bulletEnemyInner_hit Real.sqrt boundaryDuelStruck 0 (Nat.zero_lt_succ 0) 0
      (Nat.zero_lt_succ 1) hc 0 le_rfl (fun k _ _ hk => absurd hk (Nat.not_lt_zero k)),
    handleBulletEnemyCollisionLoop_done Real.sqrt _ 1 (by simp [boundaryDuelStruck])]
  simp [boundaryDuelStruck, boundaryDuelShot]


theorem boundaryDuel_updateEntities :
    updateEntities Real.sqrt (boundaryDuel : World ℝ) 0.1 =
      { player := { (boundaryDuelShot : World ℝ).player with bullets := [] }
        enemies := []
        timeElapsed := 0 } := by
  unfold updateEntities
  dsimp only
  rw [boundaryDuel_moved, boundaryDuel_playerPass, boundaryDuel_bulletPass,
    eraseInactiveLoop_eq_filter, eraseDeadLoop_eq_filter]
  simp [boundaryDuelShot, List.filter]

theorem boundaryDuel_tick (rx ry rz : Nat) :
    (updateGameLogic Real.sqrt (boundaryDuel : World ℝ) 0.1 rx ry rz).player.score = 10 ∧
    (updateGameLogic Real.sqrt (boundaryDuel : World ℝ) 0.1 rx ry rz).player.health = 70 ∧
    (updateGameLogic Real.sqrt (boundaryDuel : World ℝ) 0.1 rx ry rz).player.bullets = [] ∧
    (updateGameLogic Real.sqrt (boundaryDuel : World ℝ) 0.1 rx ry rz).enemies = [] := by
  have hno : ¬ (boundaryDuel : World ℝ).timeElapsed + 0.1 > 10 := by
    simp only [boundaryDuel]
    norm_num
  rw [updateGameLogic_eq, if_neg hno, boundaryDuel_updateEntities]
  exact ⟨rfl, rfl, rfl, rfl⟩

/-- On `boundaryDuel` a tick of 0.1 marks the bullet inactive and the second enemy dead, and
still the bullet kills the first enemy for 10 points and the second enemy takes 30 off the
player; with every flag set to true instead, the passes give the same health and score. -/
theorem passes_ignore_flags_witness :
    SameButFlags (boundaryDuelMoved : World ℝ) (allFlagsSet boundaryDuelMoved) ∧
    movedWorld (boundaryDuel : World ℝ) 0.1 = boundaryDuelMoved ∧
    (boundaryDuelMoved : World ℝ).player.bullets.map (fun b => b.active) = [false] ∧
    (boundaryDuelMoved : World ℝ).enemies.map (fun e => e.alive) = [true, false] ∧
    (handlePlayerEnemyCollision Real.sqrt (boundaryDuelMoved : World ℝ)).player.health = 70 ∧
    (handlePlayerEnemyCollision Real.sqrt (allFlagsSet (boundaryDuelMoved : World ℝ))).player.health
      = 70 ∧
    (handleBulletEnemyCollision Real.sqrt (boundaryDuelStruck : World ℝ)).player.score = 10 ∧
    (handleBulletEnemyCollision Real.sqrt (allFlagsSet (boundaryDuelStruck : World ℝ))).player.score
      = 10 ∧
    (updateGameLogic Real.sqrt (boundaryDuel : World ℝ) 0.1 0 0 0).player.score = 10 ∧
    (updateGameLogic Real.sqrt (boundaryDuel : World ℝ) 0.1 0 0 0).player.health = 70 := by
  have h1 := passes_ignore_flags Real.sqrt (boundaryDuelMoved : World ℝ)
    (allFlagsSet boundaryDuelMoved) (allFlagsSet_sameButFlags _)
  have h2 := passes_ignore_flags Real.sqrt (boundaryDuelStruck : World ℝ)
    (allFlagsSet boundaryDuelStruck) (allFlagsSet_sameButFlags _)
  have hp : (handlePlayerEnemyCollision Real.sqrt (boundaryDuelMoved : World ℝ)).player.health
      = 70 := by
    rw [boundaryDuel_playerPass]
    rfl
  have hs : (handleBulletEnemyCollision Real.sqrt (boundaryDuelStruck : World ℝ)).player.score
      = 10 := by
    rw [boundaryDuel_bulletPass]
    rfl
  refine ⟨allFlagsSet_sameButFlags _, boundaryDuel_moved, rfl, rfl, hp, ?_, hs, ?_,
    (boundaryDuel_tick 0 0 0).1, (boundaryDuel_tick 0 0 0).2.1⟩
  · rw [← h1.2.2.1.1]
    exact hp
  · rw [← h2.2.2.2.1.2.1]
    exact hs


/-! ### The loop of `main` never sees a collision -/

theorem handlePlayerEnemyCollision_no_collision (sqrt : K → K) (w : World K)
    (hpos : 0 < w.player.health)
    (hno : ∀ e ∈ w.enemies, checkCollision sqrt w.player.toObject e.toObject = false) :
    handlePlayerEnemyCollision sqrt w = w := by
  refine handlePlayerEnemyCollision_invariant sqrt (fun s => s = w) ?_ ?_ w rfl
  · intro s i hi hs
    subst hs
    unfold playerEnemyHit
    rw [if_neg (by rw [hno _ (List.get_mem _ _ _)]; exact Bool.false_ne_true)]
  · intro s hs hle
    subst hs
    exact absurd hpos (not_lt.mpr hle)

theorem handleBulletEnemyCollision_no_collision (sqrt : K → K) (w : World K)
    (hno : ∀ b ∈ w.player.bullets, ∀ e ∈ w.enemies,
      checkCollision sqrt b.toObject e.toObject = false) :
    handleBulletEnemyCollision sqrt w = w := by
  refine handleBulletEnemyCollision_invariant sqrt (fun s => s = w) ?_ w rfl
  intro s i hi hs
  subst hs
  exact bulletEnemyInner_miss sqrt s i hi 0
    (fun j hj _ => hno _ (List.get_mem _ _ _) _ (List.get_mem _ _ _))

theorem checkCollision_of_gap (a b : Object ℝ) (h : a.position.y + 400 < b.position.y) :
    checkCollision Real.sqrt a b = false := by
  rw [← Bool.not_eq_true, checkCollision_real_iff]
  simp only [Vector3.sub, Vector3.dot, not_lt]
  nlinarith [mul_self_nonneg (a.position.x - b.position.x),
    mul_self_nonneg (a.position.z - b.position.z),
    mul_self_nonneg (a.position.y - b.position.y + 400)]

theorem movedBullet_toObject (dt : K) (b : Bullet K) :
    (movedBullet dt b).toObject = b.toObject.update dt := by
  unfold movedBullet
  split <;> rfl

theorem movedEnemy_toObject (dt : K) (e : Enemy K) :
    (movedEnemy dt e).toObject = e.toObject.update dt := by
  unfold movedEnemy
  split <;> rfl

theorem update_y (o : Object K) (dt : K) :
    (o.update dt).position.y = o.position.y + o.velocity.y * dt ∧
    (o.update dt).velocity.y = o.velocity.y + -9.8 * dt := by
  simp [Object.update, Vector3.add, Vector3.smul, gravity, GRAVITY_CONSTANT]

theorem movedWorld_invariant (s : World K) (h : MainInvariant s) :
    MainInvariant (movedWorld s 0.1) := by
  obtain ⟨hh, ha, hs, hy, ht, hb, he⟩ := h
  have hp := update_y s.player.toObject 0.1
  refine ⟨hh, ha, hs, ?_, ?_, ?_, ?_⟩
  · show (s.player.toObject.update 0.1).position.y
      ≤ -(s.player.toObject.update 0.1).velocity.y / 20
        - (s.player.toObject.update 0.1).velocity.y ^ 2 / 19.6
    rw [hp.1, hp.2]
    have hy1 : s.player.toObject.position.y
        ≤ -s.player.toObject.velocity.y / 20 - s.player.toObject.velocity.y ^ 2 / 19.6 := hy
    have hring : -(s.player.toObject.velocity.y + -9.8 * 0.1) / 20
          - (s.player.toObject.velocity.y + -9.8 * 0.1) ^ 2 / 19.6
        = (-s.player.toObject.velocity.y / 20 - s.player.toObject.velocity.y ^ 2 / 19.6)
          + s.player.toObject.velocity.y * 0.1 := by
      field_simp
      ring
    rw [hring]
    linarith
  · show 9.8 * s.timeElapsed ≤ -(s.player.toObject.update 0.1).velocity.y
    rw [hp.2]
    have ht1 : 9.8 * s.timeElapsed ≤ -s.player.toObject.velocity.y := ht
    norm_num at ht1 ⊢
    linarith
  · intro b hbm
    rw [movedWorld_bullets, List.mem_map] at hbm
    obtain ⟨b0, hb0, rfl⟩ := hbm
    obtain ⟨h1, h2⟩ := hb b0 hb0
    have hb1 := update_y b0.toObject 0.1
    show (movedBullet 0.1 b0).toObject.position.y = (s.player.toObject.update 0.1).position.y ∧
      (movedBullet 0.1 b0).toObject.velocity.y = (s.player.toObject.update 0.1).velocity.y
    rw [movedBullet_toObject, hb1.1, hb1.2, hp.1, hp.2]
    have h1a : b0.toObject.position.y = s.player.toObject.position.y := h1
    have h2a : b0.toObject.velocity.y = s.player.toObject.velocity.y := h2
    rw [h1a, h2a]
    exact ⟨rfl, rfl⟩
  · intro e hem
    rw [movedWorld_enemies, List.mem_map] at hem
    obtain ⟨e0, he0, rfl⟩ := hem
    obtain ⟨h1, h2⟩ := he e0 he0
    have he1 := update_y e0.toObject 0.1
    show (s.player.toObject.update 0.1).position.y + 400
        < (movedEnemy 0.1 e0).toObject.position.y ∧
      (s.player.toObject.update 0.1).velocity.y ≤ (movedEnemy 0.1 e0).toObject.velocity.y
    rw [movedEnemy_toObject, he1.1, he1.2, hp.1, hp.2]
    have h1a : s.player.toObject.position.y + 400 < e0.toObject.position.y := h1
    have h2a : s.player.toObject.velocity.y ≤ e0.toObject.velocity.y := h2
    have h01 : (0 : K) < 0.1 := by norm_num
    constructor
    · nlinarith [mul_le_mul_of_nonneg_right h2a (le_of_lt h01)]
    · linarith


theorem movedWorld_timer (s : World K) (h : MainInvariant s) :
    9.8 * (s.timeElapsed + 0.1) ≤ -(movedWorld s 0.1).player.velocity.y := by
  have hp := update_y s.player.toObject 0.1
  show 9.8 * (s.timeElapsed + 0.1) ≤ -(s.player.toObject.update 0.1).velocity.y
  rw [hp.2]
  have ht1 : 9.8 * s.timeElapsed ≤ -s.player.toObject.velocity.y := h.2.2.2.2.1
  norm_num at ht1 ⊢
  linarith

theorem movedWorld_no_collision (s : World ℝ) (h : MainInvariant s) :
    (∀ e ∈ (movedWorld s 0.1).enemies,
      checkCollision Real.sqrt (movedWorld s 0.1).player.toObject e.toObject = false) ∧
    (∀ b ∈ (movedWorld s 0.1).player.bullets, ∀ e ∈ (movedWorld s 0.1).enemies,
      checkCollision Real.sqrt b.toObject e.toObject = false) := by
  obtain ⟨-, -, -, -, -, hb, he⟩ := movedWorld_invariant s h
  constructor
  · intro e hem
    exact checkCollision_of_gap _ _ (he e hem).1
  · intro b hbm e hem
    refine checkCollision_of_gap _ _ ?_
    have h1 : b.toObject.position.y = (movedWorld s 0.1).player.position.y := (hb b hbm).1
    rw [h1]
    exact (he e hem).1

theorem updateEntities_main (s : World ℝ) (h : MainInvariant s) :
    updateEntities Real.sqrt s 0.1 =
      { player := { (movedWorld s 0.1).player with
          bullets := (movedWorld s 0.1).player.bullets.filter (fun b => b.active) }
        enemies := (movedWorld s 0.1).enemies.filter (fun e => e.alive)
        timeElapsed := s.timeElapsed } := by
  have hm := movedWorld_invariant s h
  have hno := movedWorld_no_collision s h
  have hpos : 0 < (movedWorld s 0.1).player.health := by
    rw [hm.1]
    norm_num
  unfold updateEntities
  dsimp only
  rw [handlePlayerEnemyCollision_no_collision Real.sqrt _ hpos hno.1,
    handleBulletEnemyCollision_no_collision Real.sqrt _ hno.2, eraseInactiveLoop_eq_filter,
    eraseDeadLoop_eq_filter]
  rfl

theorem updateEntities_invariant (s : World ℝ) (h : MainInvariant s) :
    MainInvariant (updateEntities Real.sqrt s 0.1) ∧
    9.8 * (s.timeElapsed + 0.1) ≤ -(updateEntities Real.sqrt s 0.1).player.velocity.y := by
  obtain ⟨hh, ha, hs, hy, ht, hb, he⟩ := movedWorld_invariant s h
  have htimer := movedWorld_timer s h
  rw [updateEntities_main s h]
  refine ⟨⟨hh, ha, hs, hy, ht, ?_, ?_⟩, htimer⟩
  · intro b hbm
    exact hb b (List.mem_of_mem_filter hbm)
  · intro e hem
    exact he e (List.mem_of_mem_filter hem)

theorem updateGameLogic_invariant (s : World ℝ) (rx ry rz : Nat) (h : MainInvariant s) :
    MainInvariant (updateGameLogic Real.sqrt s 0.1 rx ry rz) := by
  obtain ⟨⟨hh, ha, hs, hy, ht, hb, he⟩, htimer⟩ := updateEntities_invariant s h
  rw [updateGameLogic_eq]
  split
  · rename_i hgt
    have hplayer := (spawnEnemy_frame
      { updateEntities Real.sqrt s 0.1 with timeElapsed := s.timeElapsed + 0.1 } rx ry rz).1
    have hv : (98 : ℝ) < -(updateEntities Real.sqrt s 0.1).player.velocity.y := by
      have : (98 : ℝ) < 9.8 * (s.timeElapsed + 0.1) := by
        have hgt1 : (10 : ℝ) < s.timeElapsed + 0.1 := hgt
        linarith
      linarith
    have hlow : (updateEntities Real.sqrt s 0.1).player.position.y + 400 < -50 := by
      have hy1 := hy
      have h196 : (updateEntities Real.sqrt s 0.1).player.velocity.y ^ 2 / 19.6
          = (updateEntities Real.sqrt s 0.1).player.velocity.y ^ 2 * (5 / 98) := by
        norm_num
        ring
      rw [h196] at hy1
      nlinarith [mul_pos (show (0 : ℝ) < -(updateEntities Real.sqrt s 0.1).player.velocity.y - 98
        by linarith) (show (0 : ℝ) < -(updateEntities Real.sqrt s 0.1).player.velocity.y
        by linarith)]
    refine ⟨?_, ?_, ?_, ?_, ?_, ?_, ?_⟩
    · show (spawnEnemy _ rx ry rz).player.health = 100
      rw [hplayer]
      exact hh
    · show (spawnEnemy _ rx ry rz).player.alive = true
      rw [hplayer]
      exact ha
    · show (spawnEnemy _ rx ry rz).player.score = 0
      rw [hplayer]
      exact hs
    · show (spawnEnemy _ rx ry rz).player.position.y
        ≤ -(spawnEnemy _ rx ry rz).player.velocity.y / 20
          - (spawnEnemy _ rx ry rz).player.velocity.y ^ 2 / 19.6
      rw [hplayer]
      exact hy
    · show 9.8 * (s.timeElapsed + 0.1 - 10) ≤ -(spawnEnemy _ rx ry rz).player.velocity.y
      rw [hplayer]
      have : 9.8 * (s.timeElapsed + 0.1 - 10) ≤ 9.8 * (s.timeElapsed + 0.1) := by linarith
      exact le_trans this htimer
    · intro b hbm
      have hbm1 : b ∈ (spawnEnemy
          { updateEntities Real.sqrt s 0.1 with timeElapsed := s.timeElapsed + 0.1 }
          rx ry rz).player.bullets := hbm
      rw [hplayer] at hbm1
      show b.position.y = (spawnEnemy _ rx ry rz).player.position.y ∧
        b.velocity.y = (spawnEnemy _ rx ry rz).player.velocity.y
      rw [hplayer]
      exact hb b hbm1
    · intro e hem
      show (spawnEnemy _ rx ry rz).player.position.y + 400 < e.position.y ∧
        (spawnEnemy _ rx ry rz).player.velocity.y ≤ e.velocity.y
      rw [hplayer]
      rcases spawnEnemy_mem
        { updateEntities Real.sqrt s 0.1 with timeElapsed := s.timeElapsed + 0.1 }
        rx ry rz e hem with hold | hnew
      · exact he e hold
      · rw [hnew]
        have hcoord : (-50 : ℝ) ≤ ((ry % 100 : Nat) : ℝ) - 50 := (spawnedEnemy_coordinate ry).1
        constructor
        · show (updateEntities Real.sqrt s 0.1).player.position.y + 400
            < ((ry % 100 : Nat) : ℝ) - 50
          linarith
        · show (updateEntities Real.sqrt s 0.1).player.velocity.y ≤ 0
          linarith
  · exact ⟨hh, ha, hs, hy, htimer, hb, he⟩


theorem initialWorld_invariant : MainInvariant (initialWorld : World K) := by
  refine ⟨rfl, rfl, rfl, ?_, ?_, ?_, ?_⟩
  · simp only [initialWorld, Player.mk0, Vector3.zero]
    norm_num
  · simp only [initialWorld, Player.mk0, Vector3.zero]
    norm_num
  · intro b hb
    exact absurd hb (List.not_mem_nil b)
  · intro e he
    exact absurd he (List.not_mem_nil e)

theorem restartGame_invariant (s : World K) : MainInvariant (restartGame s) := by
  refine ⟨rfl, rfl, rfl, ?_, ?_, ?_, ?_⟩
  · simp only [restartGame, Vector3.zero]
    norm_num
  · simp only [restartGame, Vector3.zero]
    norm_num
  · intro b hb
    exact absurd hb (List.not_mem_nil b)
  · intro e he
    exact absurd he (List.not_mem_nil e)

theorem shootBullet_invariant (s : World K) (h : MainInvariant s) :
    MainInvariant (shootBullet s) := by
  obtain ⟨hh, ha, hs, hy, ht, hb, he⟩ := h
  refine ⟨hh, ha, hs, hy, ht, ?_, he⟩
  intro b hbm
  rw [shootBullet_bullets] at hbm
  have hmem : b ∈ s.player.bullets ++ [firedBullet s.player.position s.player.velocity] := by
    split at hbm
    · exact List.mem_of_mem_eraseIdx hbm
    · exact hbm
  rcases List.mem_append.mp hmem with hold | hnew
  · exact hb b hold
  · rw [List.mem_singleton.mp hnew]
    show s.player.position.y + 0 = s.player.position.y ∧
      s.player.velocity.y + 0 = s.player.velocity.y
    exact ⟨add_zero _, add_zero _⟩

theorem mainIteration_invariant (s : World ℝ) (inp : Input) (h : MainInvariant s) :
    MainInvariant (mainIteration Real.sqrt s inp) := by
  have hfire : MainInvariant (if inp.fire then shootBullet s else s) := by
    split
    · exact shootBullet_invariant s h
    · exact h
  have htick := updateGameLogic_invariant _ inp.rx inp.ry inp.rz hfire
  unfold mainIteration
  dsimp only
  rw [htick.2.1]
  exact htick

theorem mainLoop_invariant (inputs : List Input) :
    ∀ s : World ℝ, MainInvariant s → MainInvariant (mainLoop Real.sqrt s inputs) := by
  induction inputs with
  | nil => intro s h; exact h
  | cons inp inputs ih =>
    intro s h
    exact ih _ (mainIteration_invariant s inp h)

/-- C17: run the loop of `main` from the initial state for any number of iterations, with any
fire inputs, any values of `rand()` and any answers to the game-over prompt (exact arithmetic,
`dt = 0.1`). The player's health stays 100, `alive` stays true and the score stays 0; every
bullet is level with the player and every enemy in the list is more than 400 above it; and
in the next tick, with or without a shot, no check of the player or of a bullet against an
enemy finds a collision. -/
theorem main_never_collides (inputs : List Input) :
    (mainLoop Real.sqrt initialWorld inputs).player.health = 100 ∧
    (mainLoop Real.sqrt initialWorld inputs).player.alive = true ∧
    (mainLoop Real.sqrt initialWorld inputs).player.score = 0 ∧
    (∀ b ∈ (mainLoop Real.sqrt initialWorld inputs).player.bullets,
      b.position.y = (mainLoop Real.sqrt initialWorld inputs).player.position.y) ∧
    (∀ e ∈ (mainLoop Real.sqrt initialWorld inputs).enemies,
      (mainLoop Real.sqrt initialWorld inputs).player.position.y + 400 < e.position.y) ∧
    (∀ fire : Bool,
      (∀ e ∈ (movedWorld (if fire then shootBullet (mainLoop Real.sqrt initialWorld inputs)
          else mainLoop Real.sqrt initialWorld inputs) 0.1).enemies,
        checkCollision Real.sqrt
          (movedWorld (if fire then shootBullet (mainLoop Real.sqrt initialWorld inputs)
            else mainLoop Real.sqrt initialWorld inputs) 0.1).player.toObject
          e.toObject = false) ∧
      (∀ b ∈ (movedWorld (if fire then shootBullet (mainLoop Real.sqrt initialWorld inputs)
          else mainLoop Real.sqrt initialWorld inputs) 0.1).player.bullets,
        ∀ e ∈ (movedWorld (if fire then shootBullet (mainLoop Real.sqrt initialWorld inputs)
          else mainLoop Real.sqrt initialWorld inputs) 0.1).enemies,
        checkCollision Real.sqrt b.toObject e.toObject = false)) := by
  have hinv := mainLoop_invariant inputs initialWorld initialWorld_invariant
  refine ⟨hinv.1, hinv.2.1, hinv.2.2.1, fun b hb => (hinv.2.2.2.2.2.1 b hb).1,
    fun e he => (hinv.2.2.2.2.2.2 e he).1, ?_⟩
  intro fire
  have hfire : MainInvariant (if fire then shootBullet (mainLoop Real.sqrt initialWorld inputs)
      else mainLoop Real.sqrt initialWorld inputs) := by
    split
    · exact shootBullet_invariant _ hinv
    · exact hinv
  exact movedWorld_no_collision _ hfire

/-- After 250 iterations that all fire, with enemies spawned on iterations 101 and 201, the
player is unhurt and has not scored. -/
theorem main_never_collides_witness :
    (mainLoop Real.sqrt initialWorld (List.replicate 250 ⟨true, 7, 8, 9, true⟩)).player.health
      = 100 ∧
    (mainLoop Real.sqrt initialWorld (List.replicate 250 ⟨true, 7, 8, 9, true⟩)).player.score
      = 0 :=
  ⟨(main_never_collides (List.replicate 250 ⟨true, 7, 8, 9, true⟩)).1,
    (main_never_collides (List.replicate 250 ⟨true, 7, 8, 9, true⟩)).2.2.1⟩

end Tick

end Bing
